import Mathlib

/-!
Shallow embedding of the `typescript-type-validator` validation engine
(final variant: `src/index.ts` with custom fields, `ValidateOptions` and
root-key prefixing), together with proofs about its behaviour.

JavaScript dynamic values are modelled by the inductive `JsValue`;
exceptions are modelled by `Except JsError`; the engine's mutually
recursive checkers are translated function by function.  The callbacks
passed to the source helpers `_isArray` and `_isObject` are inlined at
their unique call sites so that the recursion is visibly decreasing.
-/

namespace TsValidator

/-- The runtime `Type` enum of the source (`String`, `Number`, `Bool`,
`Object`, `Array`, `Custom`).  Named `JsType` because `Type` is a Lean
universe keyword. -/
inductive JsType where
  | String
  | Number
  | Bool
  | Object
  | Array
  | Custom
  deriving DecidableEq, Repr

/-- Dynamic JavaScript values as seen by the engine: strings, numbers,
booleans, `null`, `undefined`, objects (ordered association lists of
string keys) and arrays.  Numbers carry an `Int` payload; the engine
only ever inspects `typeof`, never the numeric value itself. -/
inductive JsValue where
  | str (s : String)
  | num (n : Int)
  | bool (b : Bool)
  | null
  | undefined
  | obj (fields : List (String × JsValue))
  | arr (elems : List JsValue)

mutual

/-- Strict equality `===` between dynamic values.  On primitives this is
value equality exactly as in JavaScript; on objects and arrays the
JavaScript reference equality is modelled structurally. -/
def JsValue.beq : JsValue → JsValue → Bool
  | .str a, .str b => a = b
  | .num a, .num b => a = b
  | .bool a, .bool b => a = b
  | .null, .null => true
  | .undefined, .undefined => true
  | .obj a, .obj b => JsValue.beqFields a b
  | .arr a, .arr b => JsValue.beqElems a b
  | _, _ => false

def JsValue.beqFields : List (String × JsValue) → List (String × JsValue) → Bool
  | [], [] => true
  | (k, v) :: r, (k2, v2) :: r2 =>
      k = k2 && JsValue.beq v v2 && JsValue.beqFields r r2
  | _, _ => false

def JsValue.beqElems : List JsValue → List JsValue → Bool
  | [], [] => true
  | v :: r, v2 :: r2 => JsValue.beq v v2 && JsValue.beqElems r r2
  | _, _ => false

end

/-- The `=== undefined` test used by the optional-field skip. -/
def JsValue.isUndefined : JsValue → Bool
  | .undefined => true
  | _ => false

/-- The JavaScript `typeof` operator restricted to the values above:
`typeof null`, `typeof {}` and `typeof []` are all `"object"`. -/
def jsTypeof : JsValue → String
  | .str _ => "string"
  | .num _ => "number"
  | .bool _ => "boolean"
  | .undefined => "undefined"
  | .null => "object"
  | .obj _ => "object"
  | .arr _ => "object"

/-- Errors thrown by the engine (`src/error.ts` plus plain `Error`):
the three classified field-validation errors, the outer
`ValidationError` wrapper, and generic unclassified `Error`s
(programming errors, `TypeError`s, resolver-thrown errors).  A
`fieldTypeMismatch` stores the offending value; `JsValue.undefined` plays
the role of the absent `value?` argument. -/
inductive JsError where
  | fieldTypeMismatch (key : String) (type : JsType) (value : JsValue)
  | fieldNonNullable (key : String)
  | unexpectedField (key : String)
  | validation (inner : JsError)
  | err (msg : String)

/-- `isFieldValidationError` from `src/error.ts`: an instance check for
the three classified data-validation error classes.  The
`ValidationError` wrapper and plain `Error`s are not classified. -/
def isFieldValidationError : JsError → Bool
  | .fieldTypeMismatch _ _ _ => true
  | .fieldNonNullable _ => true
  | .unexpectedField _ => true
  | .validation _ => false
  | .err _ => false

/-- A custom-field resolver: a caller-supplied JavaScript function that
receives the value and the qualified key and either returns a value or
throws. -/
def Resolver : Type := JsValue → String → Except JsError JsValue

/-- The runtime shape of a schema entry.  A plain field carries
`fieldOptions.optional`, its `type` tag, an optional nested `schema`
(object fields) and an optional `resolver` (custom fields); an array
field additionally carries its element `field`.  Absent properties of
the underlying JavaScript object are `none`. -/
inductive FieldSpec where
  | mk (optional : Bool) (type : JsType)
      (schema : Option (List (String × FieldSpec)))
      (resolver : Option Resolver)
      (elem : Option FieldSpec)

/-- A schema: the ordered own-property list of the schema object. -/
abbrev Schema := List (String × FieldSpec)

def FieldSpec.optional : FieldSpec → Bool
  | .mk o _ _ _ _ => o

def FieldSpec.type : FieldSpec → JsType
  | .mk _ t _ _ _ => t

def FieldSpec.schema : FieldSpec → Option Schema
  | .mk _ _ s _ _ => s

def FieldSpec.resolver : FieldSpec → Option Resolver
  | .mk _ _ _ r _ => r

def FieldSpec.elem : FieldSpec → Option FieldSpec
  | .mk _ _ _ _ e => e

/-- The `field` constructor: a primitive field specification. -/
def field (t : JsType) (optional : Bool) : FieldSpec :=
  .mk optional t none none none

/-- The `objectField` constructor: a nested-object field specification. -/
def objectField (schema : Schema) (optional : Bool) : FieldSpec :=
  .mk optional .Object (some schema) none none

/-- The `customField` constructor: a resolver-backed field specification. -/
def customField (resolver : Resolver) (optional : Bool) : FieldSpec :=
  .mk optional .Custom none (some resolver) none

/-- The `arrayField` constructor: an array field wrapping the (required)
element field specification. -/
def arrayField (elemSpec : FieldSpec) (optional : Bool) : FieldSpec :=
  .mk optional .Array none none (some elemSpec)

/-- `ValidateOptions` after the `{strict: false, ...options}` merge:
`strict` resolved to a boolean, `rootKey` optionally present. -/
structure ValidateOptions where
  strict : Bool
  rootKey : Option String
  deriving Repr

/-- The numeric value of a decimal digit character, `none` otherwise. -/
def digitVal (c : Char) : Option Nat :=
  if c = '0' then some 0 else if c = '1' then some 1 else if c = '2' then some 2
  else if c = '3' then some 3 else if c = '4' then some 4 else if c = '5' then some 5
  else if c = '6' then some 6 else if c = '7' then some 7 else if c = '8' then some 8
  else if c = '9' then some 9 else none

def parseDigits (acc : Nat) : List Char → Option Nat
  | [] => some acc
  | c :: rest =>
      match digitVal c with
      | some d => parseDigits (acc * 10 + d) rest
      | none => none

/-- A property key that is a canonical array index (`"0"`, `"1"`, …:
decimal digits without a leading zero), as used by JavaScript indexed
element access. -/
def canonicalIndex (key : String) : Option Nat :=
  match key.toList with
  | [] => none
  | ['0'] => some 0
  | c :: rest => if c = '0' then none else parseDigits 0 (c :: rest)

/-- Optional-chaining property access `obj?.[key]`: `null`/`undefined`
yield `undefined`; objects look up their first matching own property;
arrays and strings expose canonical index properties and `length`;
other primitives have no own properties. -/
def getField : JsValue → String → JsValue
  | .null, _ => .undefined
  | .undefined, _ => .undefined
  | .obj kvs, key =>
      match kvs.find? (fun kv => kv.1 = key) with
      | some kv => kv.2
      | none => .undefined
  | .arr xs, key =>
      match canonicalIndex key with
      | some i => xs.getD i .undefined
      | none => if key = "length" then .num xs.length else .undefined
  | .str s, key =>
      match canonicalIndex key with
      | some i =>
          match s.toList[i]? with
          | some c => .str (String.mk [c])
          | none => .undefined
      | none => if key = "length" then .num s.length else .undefined
  | .num _, _ => .undefined
  | .bool _, _ => .undefined

/-- Replace the first binding of `key` in an association list, leaving
the list unchanged when the key is absent. -/
def replaceFirst (key : String) (v : JsValue) :
    List (String × JsValue) → List (String × JsValue)
  | [] => []
  | (k, w) :: rest =>
      if k = key then (k, v) :: rest else (k, w) :: replaceFirst key v rest

/-- Pure counterpart of the engine's aliasing: after a field's checker
returns, the container's slot for that field holds the checker's result
(in JavaScript the slot still holds the same reference, whose contents
the checker may have mutated in place).  Slots that do not exist as
mutable own properties are left unchanged. -/
def setFieldIfPresent (container : JsValue) (key : String) (v : JsValue) :
    JsValue :=
  match container with
  | .obj kvs => .obj (replaceFirst key v kvs)
  | .arr xs =>
      match canonicalIndex key with
      | some i => if i < xs.length then .arr (xs.set i v) else .arr xs
      | none => .arr xs
  | other => other

/-- `Object.keys` as used by the strict check: own enumerable keys in
insertion order for objects, index strings for arrays and strings, an
empty list for other primitives, and a thrown `TypeError` for
`null`/`undefined`. -/
def jsObjectKeys : JsValue → Except JsError (List String)
  | .obj kvs => .ok (kvs.map Prod.fst)
  | .arr xs => .ok ((List.range xs.length).map toString)
  | .str s => .ok ((List.range s.length).map toString)
  | .num _ => .ok []
  | .bool _ => .ok []
  | .null => .error (.err "TypeError: Cannot convert undefined or null to object")
  | .undefined => .error (.err "TypeError: Cannot convert undefined or null to object")

/-- The `` rootKey ? `${rootKey}.${key}` : key `` computation (an empty
root key is falsy in JavaScript). -/
def qualifyKey (rootKey : Option String) (key : String) : String :=
  match rootKey with
  | some r => if r = "" then key else r ++ "." ++ key
  | none => key

/-- `_isString`: accept exactly `typeof === "string"`. -/
def _isString (val : JsValue) (key : String) : Except JsError JsValue :=
  if jsTypeof val = "string" then .ok val
  else .error (.fieldTypeMismatch key .String val)

/-- `_isNumber`: accept exactly `typeof === "number"`. -/
def _isNumber (val : JsValue) (key : String) : Except JsError JsValue :=
  if jsTypeof val = "number" then .ok val
  else .error (.fieldTypeMismatch key .Number val)

/-- `_isBool`: accept exactly `typeof === "boolean"`. -/
def _isBool (val : JsValue) (key : String) : Except JsError JsValue :=
  if jsTypeof val = "boolean" then .ok val
  else .error (.fieldTypeMismatch key .Bool val)

theorem FieldSpec.sizeOf_schema_lt (fs : FieldSpec) :
    sizeOf fs.schema < sizeOf fs := by
  cases fs with
  | mk o t s r e => simp only [FieldSpec.schema, FieldSpec.mk.sizeOf_spec]; omega

theorem FieldSpec.sizeOf_elem_lt {fs ef : FieldSpec} (h : fs.elem = some ef) :
    sizeOf ef < sizeOf fs := by
  cases fs with
  | mk o t s r e =>
      simp only [FieldSpec.elem] at h
      subst h
      simp only [FieldSpec.mk.sizeOf_spec, Option.some.sizeOf_spec]
      omega

mutual

/-- `_fieldChecker(value, key, type, strict, schema)`.  The `Object`
case inlines the source helper `_isObject` (a `typeof`-is-`"object"`
test followed by the `next` callback, which recurses into
`_objectFieldChecker` with the current qualified key as the nested root
key).  `Array` and `Custom` tags fall into the `default` branch and
throw an unclassified `Error`. -/
def _fieldChecker (value : JsValue) (key : String) (t : JsType)
    (strict : Bool) (schema : Option Schema) : Except JsError JsValue :=
  match t with
  | .String => _isString value key
  | .Number => _isNumber value key
  | .Bool => _isBool value key
  | .Object =>
      match schema with
      | some sch =>
          if jsTypeof value = "object" then
            _objectFieldChecker sch value strict (some key)
          else .error (.fieldTypeMismatch key .Object value)
      | none =>
          .error (.err ("Object type for key " ++ key ++ " must have a schema defined"))
  | _ => .error (.err ("Unknown type for key " ++ key))
termination_by (sizeOf schema, 0, 0)

/-- The element loop of `_isArray` with the source's `next` callback
`(o, index) => _fieldChecker(o, key[index], field.type, strict,
field.schema)` inlined: each element is checked in index order and its
result written back into its slot. -/
def _checkArrayElems (ef : FieldSpec) (key : String) (strict : Bool)
    (i : Nat) (xs : List JsValue) : Except JsError (List JsValue) :=
  match xs with
  | [] => .ok []
  | v :: rest => do
      let v' ← _fieldChecker v (key ++ "[" ++ toString i ++ "]") ef.type strict ef.schema
      let rest' ← _checkArrayElems ef key strict (i + 1) rest
      pure (v' :: rest')
termination_by (sizeOf ef, 1, sizeOf xs)
decreasing_by
  all_goals simp_wf
  all_goals
    first
      | (apply Prod.Lex.left
         exact FieldSpec.sizeOf_schema_lt ef)
      | decreasing_tactic

/-- One iteration of the per-field walk of `_objectFieldChecker`
(the body of the `for` loop, with the entry's field specification
destructured as in the source's `const { fieldOptions, type } =
schema[key]`), returning the (possibly array-normalized) object.  The
`Array` case inlines `_isArray`'s `Array.isArray` test. -/
def _checkEntry (strict : Bool) (rootKey : Option String) (key : String) :
    FieldSpec → JsValue → Except JsError JsValue
  | .mk opt t sOpt res elOpt, obj =>
    if opt && (getField obj key).isUndefined then .ok obj
    else
      match t with
      | .String | .Number | .Bool | .Object => do
          let v' ← _fieldChecker (getField obj key) (qualifyKey rootKey key)
            t strict sOpt
          pure (setFieldIfPresent obj key v')
      | .Array =>
          match elOpt with
          | some ef =>
              match getField obj key with
              | .arr xs => do
                  let xs' ← _checkArrayElems ef (qualifyKey rootKey key) strict 0 xs
                  pure (setFieldIfPresent obj key (.arr xs'))
              | v => .error (.fieldTypeMismatch (qualifyKey rootKey key) .Array v)
          | none => .error (.err "TypeError: Cannot read properties of undefined")
      | .Custom =>
          match res with
          | some r => do
              let result ← r (getField obj key) (qualifyKey rootKey key)
              if JsValue.beq result (getField obj key) then .ok obj
              else
                .error (.err ("Custom resolver for key " ++ key ++
                  " did not return the origin value, which is not allowed"))
          | none => .error (.err ("Resolver for key " ++ key ++ " must be a function"))
termination_by fs _ => (sizeOf fs, 2, 0)

/-- The `for (const key of Object.keys(schema))` loop of
`_objectFieldChecker`, threading the walked object through each entry. -/
def _objectFieldLoop (strict : Bool) (rootKey : Option String)
    (entries : List (String × FieldSpec)) (obj : JsValue) :
    Except JsError JsValue :=
  match entries with
  | [] => .ok obj
  | (key, fs) :: rest => do
      let obj' ← _checkEntry strict rootKey key fs obj
      _objectFieldLoop strict rootKey rest obj'
termination_by (sizeOf entries, 0, 0)

/-- `_objectFieldChecker(schema, obj, strict, rootKey)`: the strict
unexpected-key check followed by the per-field walk; on success the
walked object is returned. -/
def _objectFieldChecker (schema : Schema) (obj : JsValue) (strict : Bool)
    (rootKey : Option String) : Except JsError JsValue :=
  if strict then
    match jsObjectKeys obj with
    | .error e => .error e
    | .ok actualKeys =>
        let expectedKeys := schema.map Prod.fst
        match actualKeys.filter (fun k => !(expectedKeys.contains k)) with
        | u :: _ => .error (.unexpectedField u)
        | [] => _objectFieldLoop strict rootKey schema obj
  else _objectFieldLoop strict rootKey schema obj
termination_by (sizeOf schema, 1, 0)

end

/-- `Validator.validate(schema, obj, options)`: run the walk and wrap
any classified field-validation error in the outer `ValidationError`;
rethrow anything else unchanged. -/
def Validator.validate (schema : Schema) (obj : JsValue)
    (options : ValidateOptions) : Except JsError JsValue :=
  match _objectFieldChecker schema obj options.strict options.rootKey with
  | .ok v => .ok v
  | .error e =>
      if isFieldValidationError e then .error (.validation e)
      else .error e

/-- Whether an error is free of the `FieldNonNullableError` class, also
inside the `ValidationError` wrapper. -/
def nonNullableFree : JsError → Bool
  | .fieldNonNullable _ => false
  | .validation inner => nonNullableFree inner
  | _ => true

/-- An error that is not the `ValidationError` wrapper itself: the walk
builds only leaf errors, and only the top-level `validate` wraps. -/
def validationWrapFree : JsError → Bool
  | .validation _ => false
  | _ => true

mutual

/-- A field specification (recursively) containing no custom field, so
that no caller-supplied resolver can run during its validation. -/
def FieldSpec.noCustom : FieldSpec → Bool
  | .mk _ t sOpt _ elOpt =>
      (match t with | JsType.Custom => false | _ => true)
        && noCustomO sOpt && noCustomE elOpt

def noCustomO : Option (List (String × FieldSpec)) → Bool
  | some sch => noCustomSchema sch
  | none => true

def noCustomE : Option FieldSpec → Bool
  | some ef => FieldSpec.noCustom ef
  | none => true

/-- A schema (recursively) containing no custom field. -/
def noCustomSchema : List (String × FieldSpec) → Bool
  | [] => true
  | (_, fs) :: rest => FieldSpec.noCustom fs && noCustomSchema rest

end

/-- One segment of a diagnostic key path: a field name, qualified with
the current prefix by `qualifyKey` and, for an array element, suffixed
with its `[index]`. -/
def segKey (rk : Option String) (n : String) (idx : Option Nat) : String :=
  match idx with
  | some i => qualifyKey rk n ++ "[" ++ toString i ++ "]"
  | none => qualifyKey rk n

/-- A fully composed diagnostic key path: starting from the root prefix
`rk`, a nonempty chain of segments (field name plus optional array
index), each segment qualified against the path built so far — exactly
how the walk builds nested root keys. -/
def pathKey (rk : Option String) (seg : String × Option Nat) :
    List (String × Option Nat) → String
  | [] => segKey rk seg.1 seg.2
  | s :: rest => pathKey (some (segKey rk seg.1 seg.2)) s rest

/-! ### General lemmas about the embedding -/

theorem except_bind_ok {α β : Type} {ma : Except JsError α}
    {f : α → Except JsError β} {b : β}
    (h : (do let a ← ma; f a) = .ok b) : ∃ a, ma = .ok a ∧ f a = .ok b := by
  cases ma with
  | error e => simp [Bind.bind, Except.bind] at h
  | ok a => exact ⟨a, rfl, by simpa [Bind.bind, Except.bind] using h⟩

theorem except_bind_error_left {α β : Type} {ma : Except JsError α}
    {f : α → Except JsError β} {e : JsError} (h : ma = .error e) :
    (do let a ← ma; f a) = .error e := by
  subst h; rfl

theorem except_bind_ok_left {α β : Type} {ma : Except JsError α}
    {f : α → Except JsError β} {a : α} (h : ma = .ok a) :
    (do let a ← ma; f a) = f a := by
  subst h; rfl

theorem _isString_ok {v w : JsValue} {k : String} (h : _isString v k = .ok w) :
    w = v := by
  unfold _isString at h
  split at h
  · injection h with h; exact h.symm
  · exact Except.noConfusion h

theorem _isNumber_ok {v w : JsValue} {k : String} (h : _isNumber v k = .ok w) :
    w = v := by
  unfold _isNumber at h
  split at h
  · injection h with h; exact h.symm
  · exact Except.noConfusion h

theorem _isBool_ok {v w : JsValue} {k : String} (h : _isBool v k = .ok w) :
    w = v := by
  unfold _isBool at h
  split at h
  · injection h with h; exact h.symm
  · exact Except.noConfusion h

theorem except_bind_error {α β : Type} {ma : Except JsError α}
    {f : α → Except JsError β} {e : JsError}
    (h : (do let a ← ma; f a) = .error e) :
    ma = .error e ∨ ∃ a, ma = .ok a ∧ f a = .error e := by
  cases ma with
  | error e0 =>
      left
      simpa [Bind.bind, Except.bind] using h
  | ok a =>
      right
      exact ⟨a, rfl, by simpa [Bind.bind, Except.bind] using h⟩

theorem _isString_error {v : JsValue} {k : String} {e : JsError}
    (h : _isString v k = .error e) : e = .fieldTypeMismatch k .String v := by
  unfold _isString at h
  split at h
  · exact Except.noConfusion h
  · injection h with h; exact h.symm

theorem _isNumber_error {v : JsValue} {k : String} {e : JsError}
    (h : _isNumber v k = .error e) : e = .fieldTypeMismatch k .Number v := by
  unfold _isNumber at h
  split at h
  · exact Except.noConfusion h
  · injection h with h; exact h.symm

theorem _isBool_error {v : JsValue} {k : String} {e : JsError}
    (h : _isBool v k = .error e) : e = .fieldTypeMismatch k .Bool v := by
  unfold _isBool at h
  split at h
  · exact Except.noConfusion h
  · injection h with h; exact h.symm

theorem jsObjectKeys_error_nonNullableFree {obj : JsValue} {e : JsError}
    (h : jsObjectKeys obj = .error e) : nonNullableFree e = true := by
  cases obj with
  | null => injection h with h; rw [← h]; rfl
  | undefined => injection h with h; rw [← h]; rfl
  | str s => exact Except.noConfusion h
  | num n => exact Except.noConfusion h
  | bool b => exact Except.noConfusion h
  | obj kvs => exact Except.noConfusion h
  | arr xs => exact Except.noConfusion h

theorem jsObjectKeys_error_is_err {obj : JsValue} {e : JsError}
    (h : jsObjectKeys obj = .error e) :
    e = .err "TypeError: Cannot convert undefined or null to object" := by
  cases obj with
  | null => injection h with h; exact h.symm
  | undefined => injection h with h; exact h.symm
  | str s => exact Except.noConfusion h
  | num n => exact Except.noConfusion h
  | bool b => exact Except.noConfusion h
  | obj kvs => exact Except.noConfusion h
  | arr xs => exact Except.noConfusion h

theorem noCustom_schemaO {ef : FieldSpec} (h : FieldSpec.noCustom ef = true) :
    noCustomO ef.schema = true := by
  cases ef with
  | mk o t s r el =>
      simp only [FieldSpec.noCustom, Bool.and_eq_true] at h
      exact h.1.2

theorem validate_walk_error (schema : Schema) (obj : JsValue)
    (strict : Bool) (rk : Option String) {e : JsError}
    (h : _objectFieldChecker schema obj strict rk = .error e) :
    Validator.validate schema obj ⟨strict, rk⟩ =
      if isFieldValidationError e then .error (.validation e) else .error e := by
  simp only [Validator.validate, h]

theorem validate_walk_ok (schema : Schema) (obj : JsValue)
    (strict : Bool) (rk : Option String) {v : JsValue}
    (h : _objectFieldChecker schema obj strict rk = .ok v) :
    Validator.validate schema obj ⟨strict, rk⟩ = .ok v := by
  simp only [Validator.validate, h]

theorem _objectFieldLoop_cons_error {strict : Bool} {rk : Option String}
    {key : String} {fs : FieldSpec} {rest : List (String × FieldSpec)}
    {obj : JsValue} {e : JsError}
    (h : _checkEntry strict rk key fs obj = .error e) :
    _objectFieldLoop strict rk ((key, fs) :: rest) obj = .error e := by
  simp only [_objectFieldLoop]
  exact except_bind_error_left h

theorem _objectFieldLoop_cons_ok {strict : Bool} {rk : Option String}
    {key : String} {fs : FieldSpec} {rest : List (String × FieldSpec)}
    {obj o1 : JsValue}
    (h : _checkEntry strict rk key fs obj = .ok o1) :
    _objectFieldLoop strict rk ((key, fs) :: rest) obj =
      _objectFieldLoop strict rk rest o1 := by
  simp only [_objectFieldLoop]
  exact except_bind_ok_left h

theorem _objectFieldChecker_nonstrict (schema : Schema) (obj : JsValue)
    (rk : Option String) :
    _objectFieldChecker schema obj false rk = _objectFieldLoop false rk schema obj := by
  simp only [_objectFieldChecker, Bool.false_eq_true, if_false]

theorem _objectFieldChecker_strict_unexpected {schema : Schema} {obj : JsValue}
    {rk : Option String} {keys : List String} {u : String} {tail : List String}
    (hkeys : jsObjectKeys obj = .ok keys)
    (hfilter : keys.filter (fun k => !((schema.map Prod.fst).contains k)) = u :: tail) :
    _objectFieldChecker schema obj true rk = .error (.unexpectedField u) := by
  simp only [_objectFieldChecker, hkeys, if_true]
  rw [hfilter]

theorem _checkEntry_skip {strict : Bool} {rk : Option String} {key : String}
    {fs : FieldSpec} {obj : JsValue} (h1 : fs.optional = true)
    (h2 : (getField obj key).isUndefined = true) :
    _checkEntry strict rk key fs obj = .ok obj := by
  cases fs with
  | mk o t s r el =>
      simp only [FieldSpec.optional] at h1
      subst h1
      simp [_checkEntry.eq_def, h2]

theorem getField_obj_cons_self (n : String) (v : JsValue)
    (rest : List (String × JsValue)) :
    getField (.obj ((n, v) :: rest)) n = v := by
  simp [getField, List.find?]

theorem getField_null (k : String) : getField .null k = .undefined := rfl

theorem replaceFirst_getField_self (key : String) :
    ∀ kvs : List (String × JsValue),
      replaceFirst key (getField (.obj kvs) key) kvs = kvs := by
  intro kvs
  induction kvs with
  | nil => rfl
  | cons kv rest ih =>
      obtain ⟨k, w⟩ := kv
      by_cases h : k = key
      · simp [getField, replaceFirst, List.find?, h]
      · simpa [getField, replaceFirst, List.find?, h] using ih

theorem set_getD_self : ∀ (xs : List JsValue) (i : Nat), i < xs.length →
    xs.set i (xs.getD i .undefined) = xs := by
  intro xs
  induction xs with
  | nil => intro i h; simp at h
  | cons x rest ih =>
      intro i h
      cases i with
      | zero => rfl
      | succ j =>
          have hj : j < rest.length := by simpa using h
          have hget : (x :: rest).getD (j + 1) .undefined = rest.getD j .undefined := rfl
          rw [hget]
          show x :: rest.set j (rest.getD j .undefined) = x :: rest
          rw [ih j hj]

theorem setFieldIfPresent_getField_self (obj : JsValue) (key : String) :
    setFieldIfPresent obj key (getField obj key) = obj := by
  cases obj with
  | obj kvs =>
      simpa [setFieldIfPresent] using replaceFirst_getField_self key kvs
  | arr xs =>
      simp only [setFieldIfPresent, getField]
      cases hn : canonicalIndex key with
      | none => rfl
      | some i =>
          show (if i < xs.length then JsValue.arr (xs.set i (xs.getD i .undefined))
            else JsValue.arr xs) = JsValue.arr xs
          by_cases hi : i < xs.length
          · rw [if_pos hi, set_getD_self xs i hi]
          · rw [if_neg hi]
  | str s => rfl
  | num n => rfl
  | bool b => rfl
  | null => rfl
  | undefined => rfl

/-- On success every checker in the walk returns its input value: the
in-place array normalization writes back only values the element
checkers returned unchanged. -/
theorem _objectFieldChecker_ok_eq :
    ∀ (schema : Schema) (obj : JsValue) (strict : Bool) (rk : Option String)
      (o' : JsValue), _objectFieldChecker schema obj strict rk = .ok o' → o' = obj := by
  apply @_objectFieldChecker.induct
    (fun value key t strict sOpt =>
      ∀ v', _fieldChecker value key t strict sOpt = .ok v' → v' = value)
    (fun sch obj strict rk =>
      ∀ o', _objectFieldChecker sch obj strict rk = .ok o' → o' = obj)
    (fun strict rk entries obj =>
      ∀ o', _objectFieldLoop strict rk entries obj = .ok o' → o' = obj)
    (fun strict rk key fs obj =>
      ∀ o', _checkEntry strict rk key fs obj = .ok o' → o' = obj)
    (fun ef key strict i xs =>
      ∀ xs', _checkArrayElems ef key strict i xs = .ok xs' → xs' = xs)
  · intro value key strict schema v' h
    simp only [_fieldChecker] at h
    exact _isString_ok h
  · intro value key strict schema v' h
    simp only [_fieldChecker] at h
    exact _isNumber_ok h
  · intro value key strict schema v' h
    simp only [_fieldChecker] at h
    exact _isBool_ok h
  · intro value key strict sch hobj ih v' h
    simp only [_fieldChecker, hobj, if_true] at h
    exact ih v' h
  · intro value key strict sch hobj v' h
    simp only [_fieldChecker, hobj, if_false] at h
    exact Except.noConfusion h
  · intro value key strict v' h
    simp only [_fieldChecker] at h
    exact Except.noConfusion h
  · intro value key t strict schema h1 h2 h3 h4 v' h
    cases t with
    | String => exact absurd rfl h1
    | Number => exact absurd rfl h2
    | Bool => exact absurd rfl h3
    | Object => exact absurd rfl h4
    | Array => simp only [_fieldChecker] at h; exact Except.noConfusion h
    | Custom => simp only [_fieldChecker] at h; exact Except.noConfusion h
  · intro schema obj rootKey e hkeys o' h
    simp only [_objectFieldChecker, hkeys, if_true] at h
    exact Except.noConfusion h
  · intro schema obj rootKey actualKeys hkeys expectedKeys u tail hfilter o' h
    simp only [_objectFieldChecker, hkeys, if_true] at h
    rw [hfilter] at h
    exact Except.noConfusion h
  · intro schema obj rootKey actualKeys hkeys expectedKeys hfilter ih o' h
    simp only [_objectFieldChecker, hkeys, if_true] at h
    rw [hfilter] at h
    exact ih o' h
  · intro schema obj strict rootKey hstrict ih o' h
    rw [Bool.not_eq_true] at hstrict
    subst hstrict
    simp only [_objectFieldChecker, Bool.false_eq_true, if_false] at h
    exact ih o' h
  · intro strict rootKey obj o' h
    simp only [_objectFieldLoop] at h
    injection h with h
    exact h.symm
  · intro strict rootKey obj key fs rest ih4 ih3 o' h
    simp only [_objectFieldLoop] at h
    obtain ⟨o1, h1, h2⟩ := except_bind_ok h
    have := ih3 o1 o' h2
    rw [this, ih4 o1 h1]
  · intro strict rootKey key opt t sOpt res elOpt obj hskip o' h
    simp only [_checkEntry.eq_def, hskip, if_true] at h
    injection h with h
    exact h.symm
  · intro strict rootKey key opt sOpt res elOpt obj hskip ih o' h
    simp only [_checkEntry.eq_def, hskip, Bool.false_eq_true, if_false] at h
    obtain ⟨v', h1, h2⟩ := except_bind_ok h
    simp only [Pure.pure, Except.pure, Except.ok.injEq] at h2
    rw [← h2, ih v' h1, setFieldIfPresent_getField_self]
  · intro strict rootKey key opt sOpt res elOpt obj hskip ih o' h
    simp only [_checkEntry.eq_def, hskip, Bool.false_eq_true, if_false] at h
    obtain ⟨v', h1, h2⟩ := except_bind_ok h
    simp only [Pure.pure, Except.pure, Except.ok.injEq] at h2
    rw [← h2, ih v' h1, setFieldIfPresent_getField_self]
  · intro strict rootKey key opt sOpt res elOpt obj hskip ih o' h
    simp only [_checkEntry.eq_def, hskip, Bool.false_eq_true, if_false] at h
    obtain ⟨v', h1, h2⟩ := except_bind_ok h
    simp only [Pure.pure, Except.pure, Except.ok.injEq] at h2
    rw [← h2, ih v' h1, setFieldIfPresent_getField_self]
  · intro strict rootKey key opt sOpt res elOpt obj hskip ih o' h
    simp only [_checkEntry.eq_def, hskip, Bool.false_eq_true, if_false] at h
    obtain ⟨v', h1, h2⟩ := except_bind_ok h
    simp only [Pure.pure, Except.pure, Except.ok.injEq] at h2
    rw [← h2, ih v' h1, setFieldIfPresent_getField_self]
  · intro strict rootKey key opt sOpt res obj hskip ef xs hgf ih o' h
    simp only [_checkEntry.eq_def, hskip, Bool.false_eq_true, if_false] at h
    simp only [hgf] at h
    obtain ⟨xs', h1, h2⟩ := except_bind_ok h
    simp only [Pure.pure, Except.pure, Except.ok.injEq] at h2
    rw [← h2, ih xs' h1, ← hgf, setFieldIfPresent_getField_self]
  · intro strict rootKey key opt sOpt res obj hskip ef hnarr o' h
    simp only [_checkEntry.eq_def, hskip, Bool.false_eq_true, if_false] at h
    cases hgf : getField obj key with
    | arr xs => exact (hnarr xs hgf).elim
    | str s => rw [hgf] at h; exact Except.noConfusion h
    | num n => rw [hgf] at h; exact Except.noConfusion h
    | bool b => rw [hgf] at h; exact Except.noConfusion h
    | null => rw [hgf] at h; exact Except.noConfusion h
    | undefined => rw [hgf] at h; exact Except.noConfusion h
    | obj kvs => rw [hgf] at h; exact Except.noConfusion h
  · intro strict rootKey key opt sOpt res obj hskip o' h
    simp only [_checkEntry.eq_def, hskip, Bool.false_eq_true, if_false] at h
    exact Except.noConfusion h
  · intro strict rootKey key opt sOpt elOpt obj hskip r o' h
    simp only [_checkEntry.eq_def, hskip, Bool.false_eq_true, if_false] at h
    obtain ⟨result, h1, h2⟩ := except_bind_ok h
    split at h2
    · injection h2 with h2; exact h2.symm
    · exact Except.noConfusion h2
  · intro strict rootKey key opt sOpt elOpt obj hskip o' h
    simp only [_checkEntry.eq_def, hskip, Bool.false_eq_true, if_false] at h
    exact Except.noConfusion h
  · intro ef key strict i xs' h
    simp only [_checkArrayElems] at h
    injection h with h
    exact h.symm
  · intro ef key strict i v rest ih1 ih5 xs' h
    simp only [_checkArrayElems] at h
    obtain ⟨v', h1, h2⟩ := except_bind_ok h
    obtain ⟨rest', h3, h4⟩ := except_bind_ok h2
    simp only [Pure.pure, Except.pure, Except.ok.injEq] at h4
    rw [← h4, ih1 v' h1, ih5 rest' h3]

/-- Without custom fields no resolver can run, and every error the walk
produces is built by the engine itself, which never constructs the
reserved `FieldNonNullableError`. -/
theorem _objectFieldChecker_noCustom_nonNullableFree :
    ∀ (schema : Schema) (obj : JsValue) (strict : Bool) (rk : Option String),
      noCustomSchema schema = true →
      ∀ e, _objectFieldChecker schema obj strict rk = .error e →
        nonNullableFree e = true := by
  apply @_objectFieldChecker.induct
    (fun value key t strict sOpt => noCustomO sOpt = true →
      ∀ e, _fieldChecker value key t strict sOpt = .error e → nonNullableFree e = true)
    (fun sch obj strict rk => noCustomSchema sch = true →
      ∀ e, _objectFieldChecker sch obj strict rk = .error e → nonNullableFree e = true)
    (fun strict rk entries obj => noCustomSchema entries = true →
      ∀ e, _objectFieldLoop strict rk entries obj = .error e → nonNullableFree e = true)
    (fun strict rk key fs obj => FieldSpec.noCustom fs = true →
      ∀ e, _checkEntry strict rk key fs obj = .error e → nonNullableFree e = true)
    (fun ef key strict i xs => FieldSpec.noCustom ef = true →
      ∀ e, _checkArrayElems ef key strict i xs = .error e → nonNullableFree e = true)
  · intro value key strict schema _ e h
    simp only [_fieldChecker] at h
    rw [_isString_error h]; rfl
  · intro value key strict schema _ e h
    simp only [_fieldChecker] at h
    rw [_isNumber_error h]; rfl
  · intro value key strict schema _ e h
    simp only [_fieldChecker] at h
    rw [_isBool_error h]; rfl
  · intro value key strict sch hobj ih hnc e h
    simp only [_fieldChecker, hobj, if_true] at h
    exact ih (by simpa [noCustomO] using hnc) e h
  · intro value key strict sch hobj _ e h
    simp only [_fieldChecker, hobj, if_false] at h
    injection h with h
    rw [← h]; rfl
  · intro value key strict _ e h
    simp only [_fieldChecker] at h
    injection h with h
    rw [← h]; rfl
  · intro value key t strict schema h1 h2 h3 h4 _ e h
    cases t with
    | String => exact absurd rfl h1
    | Number => exact absurd rfl h2
    | Bool => exact absurd rfl h3
    | Object => exact absurd rfl h4
    | Array =>
        simp only [_fieldChecker] at h
        injection h with h
        rw [← h]; rfl
    | Custom =>
        simp only [_fieldChecker] at h
        injection h with h
        rw [← h]; rfl
  · intro schema obj rootKey e0 hkeys _ e h
    simp only [_objectFieldChecker, hkeys, if_true] at h
    injection h with h
    rw [← h]
    exact jsObjectKeys_error_nonNullableFree hkeys
  · intro schema obj rootKey actualKeys hkeys expectedKeys u tail hfilter _ e h
    simp only [_objectFieldChecker, hkeys, if_true] at h
    rw [hfilter] at h
    injection h with h
    rw [← h]; rfl
  · intro schema obj rootKey actualKeys hkeys expectedKeys hfilter ih hnc e h
    simp only [_objectFieldChecker, hkeys, if_true] at h
    rw [hfilter] at h
    exact ih hnc e h
  · intro schema obj strict rootKey hstrict ih hnc e h
    rw [Bool.not_eq_true] at hstrict
    subst hstrict
    simp only [_objectFieldChecker, Bool.false_eq_true, if_false] at h
    exact ih hnc e h
  · intro strict rootKey obj _ e h
    simp only [_objectFieldLoop] at h
    exact Except.noConfusion h
  · intro strict rootKey obj key fs rest ih4 ih3 hnc e h
    simp only [noCustomSchema, Bool.and_eq_true] at hnc
    simp only [_objectFieldLoop] at h
    rcases except_bind_error h with h1 | ⟨o1, h1, h2⟩
    · exact ih4 hnc.1 e h1
    · exact ih3 o1 hnc.2 e h2
  · intro strict rootKey key opt t sOpt res elOpt obj hskip _ e h
    simp only [_checkEntry.eq_def, hskip, if_true] at h
    exact Except.noConfusion h
  · intro strict rootKey key opt sOpt res elOpt obj hskip ih hnc e h
    simp only [FieldSpec.noCustom, Bool.and_eq_true] at hnc
    simp only [_checkEntry.eq_def, hskip, Bool.false_eq_true, if_false] at h
    rcases except_bind_error h with h1 | ⟨v', h1, h2⟩
    · exact ih hnc.1.2 e h1
    · simp only [Pure.pure, Except.pure] at h2
      exact Except.noConfusion h2
  · intro strict rootKey key opt sOpt res elOpt obj hskip ih hnc e h
    simp only [FieldSpec.noCustom, Bool.and_eq_true] at hnc
    simp only [_checkEntry.eq_def, hskip, Bool.false_eq_true, if_false] at h
    rcases except_bind_error h with h1 | ⟨v', h1, h2⟩
    · exact ih hnc.1.2 e h1
    · simp only [Pure.pure, Except.pure] at h2
      exact Except.noConfusion h2
  · intro strict rootKey key opt sOpt res elOpt obj hskip ih hnc e h
    simp only [FieldSpec.noCustom, Bool.and_eq_true] at hnc
    simp only [_checkEntry.eq_def, hskip, Bool.false_eq_true, if_false] at h
    rcases except_bind_error h with h1 | ⟨v', h1, h2⟩
    · exact ih hnc.1.2 e h1
    · simp only [Pure.pure, Except.pure] at h2
      exact Except.noConfusion h2
  · intro strict rootKey key opt sOpt res elOpt obj hskip ih hnc e h
    simp only [FieldSpec.noCustom, Bool.and_eq_true] at hnc
    simp only [_checkEntry.eq_def, hskip, Bool.false_eq_true, if_false] at h
    rcases except_bind_error h with h1 | ⟨v', h1, h2⟩
    · exact ih hnc.1.2 e h1
    · simp only [Pure.pure, Except.pure] at h2
      exact Except.noConfusion h2
  · intro strict rootKey key opt sOpt res obj hskip ef xs hgf ih hnc e h
    simp only [FieldSpec.noCustom, noCustomE, Bool.and_eq_true] at hnc
    simp only [_checkEntry.eq_def, hskip, Bool.false_eq_true, if_false] at h
    simp only [hgf] at h
    rcases except_bind_error h with h1 | ⟨xs', h1, h2⟩
    · exact ih hnc.2 e h1
    · simp only [Pure.pure, Except.pure] at h2
      exact Except.noConfusion h2
  · intro strict rootKey key opt sOpt res obj hskip ef hnarr _ e h
    simp only [_checkEntry.eq_def, hskip, Bool.false_eq_true, if_false] at h
    cases hgf : getField obj key with
    | arr xs => exact (hnarr xs hgf).elim
    | str s => rw [hgf] at h; injection h with h; rw [← h]; rfl
    | num n => rw [hgf] at h; injection h with h; rw [← h]; rfl
    | bool b => rw [hgf] at h; injection h with h; rw [← h]; rfl
    | null => rw [hgf] at h; injection h with h; rw [← h]; rfl
    | undefined => rw [hgf] at h; injection h with h; rw [← h]; rfl
    | obj kvs => rw [hgf] at h; injection h with h; rw [← h]; rfl
  · intro strict rootKey key opt sOpt res obj hskip _ e h
    simp only [_checkEntry.eq_def, hskip, Bool.false_eq_true, if_false] at h
    injection h with h
    rw [← h]; rfl
  · intro strict rootKey key opt sOpt elOpt obj hskip r hnc e h
    exact absurd hnc (by simp [FieldSpec.noCustom])
  · intro strict rootKey key opt sOpt elOpt obj hskip hnc e h
    exact absurd hnc (by simp [FieldSpec.noCustom])
  · intro ef key strict i _ e h
    simp only [_checkArrayElems] at h
    exact Except.noConfusion h
  · intro ef key strict i v rest ih1 ih5 hnc e h
    simp only [_checkArrayElems] at h
    rcases except_bind_error h with h1 | ⟨v', h1, h2⟩
    · exact ih1 (noCustom_schemaO hnc) e h1
    · rcases except_bind_error h2 with h3 | ⟨rest', h3, h4⟩
      · exact ih5 hnc e h3
      · simp only [Pure.pure, Except.pure] at h4
        exact Except.noConfusion h4

/-- Without custom fields no resolver can run, and every error the walk
produces is a leaf error built by the engine itself: the `Validation`
wrapper is added only by the top-level `validate`. -/
theorem _objectFieldChecker_error_unwrapped :
    ∀ (schema : Schema) (obj : JsValue) (strict : Bool) (rk : Option String),
      noCustomSchema schema = true →
      ∀ e, _objectFieldChecker schema obj strict rk = .error e →
        validationWrapFree e = true := by
  apply @_objectFieldChecker.induct
    (fun value key t strict sOpt => noCustomO sOpt = true →
      ∀ e, _fieldChecker value key t strict sOpt = .error e → validationWrapFree e = true)
    (fun sch obj strict rk => noCustomSchema sch = true →
      ∀ e, _objectFieldChecker sch obj strict rk = .error e → validationWrapFree e = true)
    (fun strict rk entries obj => noCustomSchema entries = true →
      ∀ e, _objectFieldLoop strict rk entries obj = .error e → validationWrapFree e = true)
    (fun strict rk key fs obj => FieldSpec.noCustom fs = true →
      ∀ e, _checkEntry strict rk key fs obj = .error e → validationWrapFree e = true)
    (fun ef key strict i xs => FieldSpec.noCustom ef = true →
      ∀ e, _checkArrayElems ef key strict i xs = .error e → validationWrapFree e = true)
  · intro value key strict schema _ e h
    simp only [_fieldChecker] at h
    rw [_isString_error h]; rfl
  · intro value key strict schema _ e h
    simp only [_fieldChecker] at h
    rw [_isNumber_error h]; rfl
  · intro value key strict schema _ e h
    simp only [_fieldChecker] at h
    rw [_isBool_error h]; rfl
  · intro value key strict sch hobj ih hnc e h
    simp only [_fieldChecker, hobj, if_true] at h
    exact ih (by simpa [noCustomO] using hnc) e h
  · intro value key strict sch hobj _ e h
    simp only [_fieldChecker, hobj, if_false] at h
    injection h with h
    rw [← h]; rfl
  · intro value key strict _ e h
    simp only [_fieldChecker] at h
    injection h with h
    rw [← h]; rfl
  · intro value key t strict schema h1 h2 h3 h4 _ e h
    cases t with
    | String => exact absurd rfl h1
    | Number => exact absurd rfl h2
    | Bool => exact absurd rfl h3
    | Object => exact absurd rfl h4
    | Array =>
        simp only [_fieldChecker] at h
        injection h with h
        rw [← h]; rfl
    | Custom =>
        simp only [_fieldChecker] at h
        injection h with h
        rw [← h]; rfl
  · intro schema obj rootKey e0 hkeys _ e h
    simp only [_objectFieldChecker, hkeys, if_true] at h
    injection h with h
    rw [← h, jsObjectKeys_error_is_err hkeys]
    rfl
  · intro schema obj rootKey actualKeys hkeys expectedKeys u tail hfilter _ e h
    simp only [_objectFieldChecker, hkeys, if_true] at h
    rw [hfilter] at h
    injection h with h
    rw [← h]; rfl
  · intro schema obj rootKey actualKeys hkeys expectedKeys hfilter ih hnc e h
    simp only [_objectFieldChecker, hkeys, if_true] at h
    rw [hfilter] at h
    exact ih hnc e h
  · intro schema obj strict rootKey hstrict ih hnc e h
    rw [Bool.not_eq_true] at hstrict
    subst hstrict
    simp only [_objectFieldChecker, Bool.false_eq_true, if_false] at h
    exact ih hnc e h
  · intro strict rootKey obj _ e h
    simp only [_objectFieldLoop] at h
    exact Except.noConfusion h
  · intro strict rootKey obj key fs rest ih4 ih3 hnc e h
    simp only [noCustomSchema, Bool.and_eq_true] at hnc
    simp only [_objectFieldLoop] at h
    rcases except_bind_error h with h1 | ⟨o1, h1, h2⟩
    · exact ih4 hnc.1 e h1
    · exact ih3 o1 hnc.2 e h2
  · intro strict rootKey key opt t sOpt res elOpt obj hskip _ e h
    simp only [_checkEntry.eq_def, hskip, if_true] at h
    exact Except.noConfusion h
  · intro strict rootKey key opt sOpt res elOpt obj hskip ih hnc e h
    simp only [FieldSpec.noCustom, Bool.and_eq_true] at hnc
    simp only [_checkEntry.eq_def, hskip, Bool.false_eq_true, if_false] at h
    rcases except_bind_error h with h1 | ⟨v', h1, h2⟩
    · exact ih hnc.1.2 e h1
    · simp only [Pure.pure, Except.pure] at h2
      exact Except.noConfusion h2
  · intro strict rootKey key opt sOpt res elOpt obj hskip ih hnc e h
    simp only [FieldSpec.noCustom, Bool.and_eq_true] at hnc
    simp only [_checkEntry.eq_def, hskip, Bool.false_eq_true, if_false] at h
    rcases except_bind_error h with h1 | ⟨v', h1, h2⟩
    · exact ih hnc.1.2 e h1
    · simp only [Pure.pure, Except.pure] at h2
      exact Except.noConfusion h2
  · intro strict rootKey key opt sOpt res elOpt obj hskip ih hnc e h
    simp only [FieldSpec.noCustom, Bool.and_eq_true] at hnc
    simp only [_checkEntry.eq_def, hskip, Bool.false_eq_true, if_false] at h
    rcases except_bind_error h with h1 | ⟨v', h1, h2⟩
    · exact ih hnc.1.2 e h1
    · simp only [Pure.pure, Except.pure] at h2
      exact Except.noConfusion h2
  · intro strict rootKey key opt sOpt res elOpt obj hskip ih hnc e h
    simp only [FieldSpec.noCustom, Bool.and_eq_true] at hnc
    simp only [_checkEntry.eq_def, hskip, Bool.false_eq_true, if_false] at h
    rcases except_bind_error h with h1 | ⟨v', h1, h2⟩
    · exact ih hnc.1.2 e h1
    · simp only [Pure.pure, Except.pure] at h2
      exact Except.noConfusion h2
  · intro strict rootKey key opt sOpt res obj hskip ef xs hgf ih hnc e h
    simp only [FieldSpec.noCustom, noCustomE, Bool.and_eq_true] at hnc
    simp only [_checkEntry.eq_def, hskip, Bool.false_eq_true, if_false] at h
    simp only [hgf] at h
    rcases except_bind_error h with h1 | ⟨xs', h1, h2⟩
    · exact ih hnc.2 e h1
    · simp only [Pure.pure, Except.pure] at h2
      exact Except.noConfusion h2
  · intro strict rootKey key opt sOpt res obj hskip ef hnarr _ e h
    simp only [_checkEntry.eq_def, hskip, Bool.false_eq_true, if_false] at h
    cases hgf : getField obj key with
    | arr xs => exact (hnarr xs hgf).elim
    | str s => rw [hgf] at h; injection h with h; rw [← h]; rfl
    | num n => rw [hgf] at h; injection h with h; rw [← h]; rfl
    | bool b => rw [hgf] at h; injection h with h; rw [← h]; rfl
    | null => rw [hgf] at h; injection h with h; rw [← h]; rfl
    | undefined => rw [hgf] at h; injection h with h; rw [← h]; rfl
    | obj kvs => rw [hgf] at h; injection h with h; rw [← h]; rfl
  · intro strict rootKey key opt sOpt res obj hskip _ e h
    simp only [_checkEntry.eq_def, hskip, Bool.false_eq_true, if_false] at h
    injection h with h
    rw [← h]; rfl
  · intro strict rootKey key opt sOpt elOpt obj hskip r hnc e h
    exact absurd hnc (by simp [FieldSpec.noCustom])
  · intro strict rootKey key opt sOpt elOpt obj hskip hnc e h
    exact absurd hnc (by simp [FieldSpec.noCustom])
  · intro ef key strict i _ e h
    simp only [_checkArrayElems] at h
    exact Except.noConfusion h
  · intro ef key strict i v rest ih1 ih5 hnc e h
    simp only [_checkArrayElems] at h
    rcases except_bind_error h with h1 | ⟨v', h1, h2⟩
    · exact ih1 (noCustom_schemaO hnc) e h1
    · rcases except_bind_error h2 with h3 | ⟨rest', h3, h4⟩
      · exact ih5 hnc e h3
      · simp only [Pure.pure, Except.pure] at h4
        exact Except.noConfusion h4

/-- On custom-field-free schemas (so that no resolver, which could
throw a mismatch with an arbitrary key, runs) every type-mismatch
error the walk reports carries a key of the composed path form: the
call's root key, then a nonempty chain of field names — the first one a
field of the schema — with array elements qualified by `[index]`. -/
theorem _objectFieldChecker_mismatch_path :
    ∀ (schema : Schema) (obj : JsValue) (strict : Bool) (rk : Option String),
      noCustomSchema schema = true →
      ∀ k t v, _objectFieldChecker schema obj strict rk =
          .error (.fieldTypeMismatch k t v) →
        ∃ n idx segs, n ∈ schema.map Prod.fst ∧ k = pathKey rk (n, idx) segs := by
  apply @_objectFieldChecker.induct
    (fun value key t strict sOpt => noCustomO sOpt = true →
      ∀ k2 t2 v2,
        _fieldChecker value key t strict sOpt = .error (.fieldTypeMismatch k2 t2 v2) →
        k2 = key ∨ ∃ n idx segs, k2 = pathKey (some key) (n, idx) segs)
    (fun sch obj strict rk => noCustomSchema sch = true →
      ∀ k2 t2 v2,
        _objectFieldChecker sch obj strict rk = .error (.fieldTypeMismatch k2 t2 v2) →
        ∃ n idx segs, n ∈ sch.map Prod.fst ∧ k2 = pathKey rk (n, idx) segs)
    (fun strict rk entries obj => noCustomSchema entries = true →
      ∀ k2 t2 v2,
        _objectFieldLoop strict rk entries obj = .error (.fieldTypeMismatch k2 t2 v2) →
        ∃ n idx segs, n ∈ entries.map Prod.fst ∧ k2 = pathKey rk (n, idx) segs)
    (fun strict rk key fs obj => FieldSpec.noCustom fs = true →
      ∀ k2 t2 v2,
        _checkEntry strict rk key fs obj = .error (.fieldTypeMismatch k2 t2 v2) →
        ∃ idx segs, k2 = pathKey rk (key, idx) segs)
    (fun ef key strict i xs => FieldSpec.noCustom ef = true →
      ∀ k2 t2 v2,
        _checkArrayElems ef key strict i xs = .error (.fieldTypeMismatch k2 t2 v2) →
        ∃ j : Nat, k2 = key ++ "[" ++ toString j ++ "]"
          ∨ ∃ n idx segs,
              k2 = pathKey (some (key ++ "[" ++ toString j ++ "]")) (n, idx) segs)
  · intro value key strict schema _ k2 t2 v2 h
    simp only [_fieldChecker] at h
    have he := _isString_error h
    injection he with h1 h2 h3
    exact Or.inl h1
  · intro value key strict schema _ k2 t2 v2 h
    simp only [_fieldChecker] at h
    have he := _isNumber_error h
    injection he with h1 h2 h3
    exact Or.inl h1
  · intro value key strict schema _ k2 t2 v2 h
    simp only [_fieldChecker] at h
    have he := _isBool_error h
    injection he with h1 h2 h3
    exact Or.inl h1
  · intro value key strict sch hobj ih hnc k2 t2 v2 h
    simp only [_fieldChecker, hobj, if_true] at h
    obtain ⟨n, idx, segs, _, hk⟩ := ih (by simpa [noCustomO] using hnc) k2 t2 v2 h
    exact Or.inr ⟨n, idx, segs, hk⟩
  · intro value key strict sch hobj _ k2 t2 v2 h
    simp only [_fieldChecker, hobj, if_false] at h
    injection h with h
    injection h with h1 h2 h3
    exact Or.inl h1.symm
  · intro value key strict _ k2 t2 v2 h
    simp only [_fieldChecker] at h
    injection h with h
    exact JsError.noConfusion h
  · intro value key t strict schema h1 h2 h3 h4 _ k2 t2 v2 h
    cases t with
    | String => exact absurd rfl h1
    | Number => exact absurd rfl h2
    | Bool => exact absurd rfl h3
    | Object => exact absurd rfl h4
    | Array =>
        simp only [_fieldChecker] at h
        injection h with h
        exact JsError.noConfusion h
    | Custom =>
        simp only [_fieldChecker] at h
        injection h with h
        exact JsError.noConfusion h
  · intro schema obj rootKey e0 hkeys _ k2 t2 v2 h
    simp only [_objectFieldChecker, hkeys, if_true] at h
    injection h with h
    rw [jsObjectKeys_error_is_err hkeys] at h
    exact JsError.noConfusion h
  · intro schema obj rootKey actualKeys hkeys expectedKeys u tail hfilter _ k2 t2 v2 h
    simp only [_objectFieldChecker, hkeys, if_true] at h
    rw [hfilter] at h
    injection h with h
    exact JsError.noConfusion h
  · intro schema obj rootKey actualKeys hkeys expectedKeys hfilter ih hnc k2 t2 v2 h
    simp only [_objectFieldChecker, hkeys, if_true] at h
    rw [hfilter] at h
    exact ih hnc k2 t2 v2 h
  · intro schema obj strict rootKey hstrict ih hnc k2 t2 v2 h
    rw [Bool.not_eq_true] at hstrict
    subst hstrict
    simp only [_objectFieldChecker, Bool.false_eq_true, if_false] at h
    exact ih hnc k2 t2 v2 h
  · intro strict rootKey obj _ k2 t2 v2 h
    simp only [_objectFieldLoop] at h
    exact Except.noConfusion h
  · intro strict rootKey obj key fs rest ih4 ih3 hnc k2 t2 v2 h
    simp only [noCustomSchema, Bool.and_eq_true] at hnc
    simp only [_objectFieldLoop] at h
    rcases except_bind_error h with h1 | ⟨o1, h1, h2⟩
    · obtain ⟨idx, segs, hk⟩ := ih4 hnc.1 k2 t2 v2 h1
      exact ⟨key, idx, segs, by simp, hk⟩
    · obtain ⟨n, idx, segs, hn, hk⟩ := ih3 o1 hnc.2 k2 t2 v2 h2
      exact ⟨n, idx, segs, by simp [hn], hk⟩
  · intro strict rootKey key opt t sOpt res elOpt obj hskip _ k2 t2 v2 h
    simp only [_checkEntry.eq_def, hskip, if_true] at h
    exact Except.noConfusion h
  · intro strict rootKey key opt sOpt res elOpt obj hskip ih hnc k2 t2 v2 h
    simp only [FieldSpec.noCustom, Bool.and_eq_true] at hnc
    simp only [_checkEntry.eq_def, hskip, Bool.false_eq_true, if_false] at h
    rcases except_bind_error h with h1 | ⟨v', h1, h2⟩
    · rcases ih hnc.1.2 k2 t2 v2 h1 with hkey | ⟨n, idx, segs, hk⟩
      · exact ⟨none, [], by simpa [pathKey, segKey] using hkey⟩
      · exact ⟨none, (n, idx) :: segs, by simpa [pathKey, segKey] using hk⟩
    · simp only [Pure.pure, Except.pure] at h2
      exact Except.noConfusion h2
  · intro strict rootKey key opt sOpt res elOpt obj hskip ih hnc k2 t2 v2 h
    simp only [FieldSpec.noCustom, Bool.and_eq_true] at hnc
    simp only [_checkEntry.eq_def, hskip, Bool.false_eq_true, if_false] at h
    rcases except_bind_error h with h1 | ⟨v', h1, h2⟩
    · rcases ih hnc.1.2 k2 t2 v2 h1 with hkey | ⟨n, idx, segs, hk⟩
      · exact ⟨none, [], by simpa [pathKey, segKey] using hkey⟩
      · exact ⟨none, (n, idx) :: segs, by simpa [pathKey, segKey] using hk⟩
    · simp only [Pure.pure, Except.pure] at h2
      exact Except.noConfusion h2
  · intro strict rootKey key opt sOpt res elOpt obj hskip ih hnc k2 t2 v2 h
    simp only [FieldSpec.noCustom, Bool.and_eq_true] at hnc
    simp only [_checkEntry.eq_def, hskip, Bool.false_eq_true, if_false] at h
    rcases except_bind_error h with h1 | ⟨v', h1, h2⟩
    · rcases ih hnc.1.2 k2 t2 v2 h1 with hkey | ⟨n, idx, segs, hk⟩
      · exact ⟨none, [], by simpa [pathKey, segKey] using hkey⟩
      · exact ⟨none, (n, idx) :: segs, by simpa [pathKey, segKey] using hk⟩
    · simp only [Pure.pure, Except.pure] at h2
      exact Except.noConfusion h2
  · intro strict rootKey key opt sOpt res elOpt obj hskip ih hnc k2 t2 v2 h
    simp only [FieldSpec.noCustom, Bool.and_eq_true] at hnc
    simp only [_checkEntry.eq_def, hskip, Bool.false_eq_true, if_false] at h
    rcases except_bind_error h with h1 | ⟨v', h1, h2⟩
    · rcases ih hnc.1.2 k2 t2 v2 h1 with hkey | ⟨n, idx, segs, hk⟩
      · exact ⟨none, [], by simpa [pathKey, segKey] using hkey⟩
      · exact ⟨none, (n, idx) :: segs, by simpa [pathKey, segKey] using hk⟩
    · simp only [Pure.pure, Except.pure] at h2
      exact Except.noConfusion h2
  · intro strict rootKey key opt sOpt res obj hskip ef xs hgf ih hnc k2 t2 v2 h
    simp only [FieldSpec.noCustom, noCustomE, Bool.and_eq_true] at hnc
    simp only [_checkEntry.eq_def, hskip, Bool.false_eq_true, if_false] at h
    simp only [hgf] at h
    rcases except_bind_error h with h1 | ⟨xs', h1, h2⟩
    · obtain ⟨j, hj⟩ := ih hnc.2 k2 t2 v2 h1
      rcases hj with hkey | ⟨n, idx, segs, hk⟩
      · exact ⟨some j, [], by simpa [pathKey, segKey] using hkey⟩
      · exact ⟨some j, (n, idx) :: segs, by simpa [pathKey, segKey] using hk⟩
    · simp only [Pure.pure, Except.pure] at h2
      exact Except.noConfusion h2
  · intro strict rootKey key opt sOpt res obj hskip ef hnarr _ k2 t2 v2 h
    simp only [_checkEntry.eq_def, hskip, Bool.false_eq_true, if_false] at h
    cases hgf : getField obj key with
    | arr xs => exact (hnarr xs hgf).elim
    | str s =>
        rw [hgf] at h
        injection h with h
        injection h with h1 h2 h3
        exact ⟨none, [], by rw [← h1]; simp [pathKey, segKey]⟩
    | num n =>
        rw [hgf] at h
        injection h with h
        injection h with h1 h2 h3
        exact ⟨none, [], by rw [← h1]; simp [pathKey, segKey]⟩
    | bool b =>
        rw [hgf] at h
        injection h with h
        injection h with h1 h2 h3
        exact ⟨none, [], by rw [← h1]; simp [pathKey, segKey]⟩
    | null =>
        rw [hgf] at h
        injection h with h
        injection h with h1 h2 h3
        exact ⟨none, [], by rw [← h1]; simp [pathKey, segKey]⟩
    | undefined =>
        rw [hgf] at h
        injection h with h
        injection h with h1 h2 h3
        exact ⟨none, [], by rw [← h1]; simp [pathKey, segKey]⟩
    | obj kvs =>
        rw [hgf] at h
        injection h with h
        injection h with h1 h2 h3
        exact ⟨none, [], by rw [← h1]; simp [pathKey, segKey]⟩
  · intro strict rootKey key opt sOpt res obj hskip _ k2 t2 v2 h
    simp only [_checkEntry.eq_def, hskip, Bool.false_eq_true, if_false] at h
    injection h with h
    exact JsError.noConfusion h
  · intro strict rootKey key opt sOpt elOpt obj hskip r hnc k2 t2 v2 h
    exact absurd hnc (by simp [FieldSpec.noCustom])
  · intro strict rootKey key opt sOpt elOpt obj hskip hnc k2 t2 v2 h
    exact absurd hnc (by simp [FieldSpec.noCustom])
  · intro ef key strict i _ k2 t2 v2 h
    simp only [_checkArrayElems] at h
    exact Except.noConfusion h
  · intro ef key strict i v rest ih1 ih5 hnc k2 t2 v2 h
    simp only [_checkArrayElems] at h
    rcases except_bind_error h with h1 | ⟨v', h1, h2⟩
    · rcases ih1 (noCustom_schemaO hnc) k2 t2 v2 h1 with hkey | ⟨n, idx, segs, hk⟩
      · exact ⟨i, Or.inl hkey⟩
      · exact ⟨i, Or.inr ⟨n, idx, segs, hk⟩⟩
    · rcases except_bind_error h2 with h3 | ⟨rest', h3, h4⟩
      · obtain ⟨j, hj⟩ := ih5 hnc k2 t2 v2 h3
        exact ⟨j, hj⟩
      · simp only [Pure.pure, Except.pure] at h4
        exact Except.noConfusion h4

/-! ### Claim theorems -/

/-- C1: with strict mode on and input keys absent from the schema, the
engine throws an unexpected-field error for the first such key, but the
reported key is the bare input key, not qualified with the rootKey/path
prefix: with `rootKey "request.body"` the unexpected key `"z"` is
reported as `"z"`, not `"request.body.z"` (contradicting the README's
"prefixes all error keys"). -/
theorem c1_strict_unexpected_key_reported_bare :
    Validator.validate [("a", field .String false)]
      (.obj [("a", .str "x"), ("z", .num 1)]) ⟨true, some "request.body"⟩ =
      .error (.validation (.unexpectedField "z"))
    ∧ (("z" : String) == "request.body.z") = false := by
  constructor
  · simp [Validator.validate, _objectFieldChecker, _objectFieldLoop, _checkEntry.eq_def,
      _fieldChecker, _checkArrayElems, _isString, _isNumber, _isBool, getField,
      setFieldIfPresent, replaceFirst, jsTypeof, jsObjectKeys, qualifyKey, canonicalIndex,
      parseDigits, digitVal, field, objectField, customField, arrayField,
      JsValue.isUndefined, isFieldValidationError, Bind.bind, Except.bind, Pure.pure,
      Except.pure, List.find?, List.filter, List.contains]
    all_goals rfl
  · decide

/-- C7: validating an array whose element kind is `Custom` does not run
the resolver at all: `_fieldChecker` has no `Custom` case, so the walk
throws the unclassified `Unknown type` programming error at the first
element, although the schema type and the `arrayField`/`customField`
constructors advertise arrays of custom fields. -/
theorem c7_array_of_custom_elements_unknown_type :
    Validator.validate [("xs", arrayField (customField (fun v _ => .ok v) false) false)]
      (.obj [("xs", .arr [.num 1])]) ⟨false, none⟩ =
      .error (.err "Unknown type for key xs[0]") := by
  simp [Validator.validate, _objectFieldChecker, _objectFieldLoop, _checkEntry.eq_def,
    _fieldChecker, _checkArrayElems, _isString, _isNumber, _isBool, getField,
    setFieldIfPresent, replaceFirst, jsTypeof, jsObjectKeys, qualifyKey, canonicalIndex,
    parseDigits, digitVal, field, objectField, customField, arrayField,
    JsValue.isUndefined, isFieldValidationError, Bind.bind, Except.bind, Pure.pure,
    Except.pure, List.find?, List.filter, List.contains, FieldSpec.type, FieldSpec.schema]
  all_goals rfl

/-- C4 counterexample: not every validation failure carries the
rootKey-qualified path; a strict-mode unexpected-field failure with
`rootKey "R"` reports the bare key `"w"`, not `"R.w"`. -/
theorem c4_unexpected_field_path_not_prefixed :
    Validator.validate [("q", field .Number false)]
      (.obj [("q", .num 1), ("w", .num 2)]) ⟨true, some "R"⟩ =
      .error (.validation (.unexpectedField "w"))
    ∧ (("w" : String) == "R.w") = false := by
  constructor
  · simp [Validator.validate, _objectFieldChecker, _objectFieldLoop, _checkEntry.eq_def,
      _fieldChecker, _checkArrayElems, _isString, _isNumber, _isBool, getField,
      setFieldIfPresent, replaceFirst, jsTypeof, jsObjectKeys, qualifyKey, canonicalIndex,
      parseDigits, digitVal, field, objectField, customField, arrayField,
      JsValue.isUndefined, isFieldValidationError, Bind.bind, Except.bind, Pure.pure,
      Except.pure, List.find?, List.filter, List.contains]
    all_goals rfl
  · decide

/-- C4 (amended to type-mismatch failures): on every custom-field-free
schema (a resolver may throw a mismatch with an arbitrary key), every
type-mismatch validation failure reports a key of the composed path
form — the rootKey option followed by the dot-separated chain of field
names down to the failing field, the first name a field of the schema,
with array elements qualified as `name[index]`; concretely, the nested
`age` failure under `u` with rootKey `"request.body"` reports
`"request.body.u.age"`, and the second element of array `xs` reports
`"xs[1]"`. -/
theorem c4_mismatch_path_composition :
    (∀ (schema : Schema) (obj : JsValue) (strict : Bool) (rk : Option String)
        (k : String) (t : JsType) (v : JsValue),
      noCustomSchema schema = true →
      Validator.validate schema obj ⟨strict, rk⟩ =
        .error (.validation (.fieldTypeMismatch k t v)) →
      ∃ n idx segs, n ∈ schema.map Prod.fst ∧ k = pathKey rk (n, idx) segs)
    ∧ Validator.validate [("u", objectField [("age", field .Number false)] false)]
      (.obj [("u", .obj [("age", .str "bad")])]) ⟨false, some "request.body"⟩ =
      .error (.validation (.fieldTypeMismatch "request.body.u.age" .Number (.str "bad")))
    ∧ Validator.validate [("xs", arrayField (field .String false) false)]
      (.obj [("xs", .arr [.str "ok", .num 5])]) ⟨false, none⟩ =
      .error (.validation (.fieldTypeMismatch "xs[1]" .String (.num 5))) := by
  refine ⟨?_, ?_, ?_⟩
  · intro schema obj strict rk k t v hnc hval
    cases hw : _objectFieldChecker schema obj strict rk with
    | ok w =>
        rw [validate_walk_ok schema obj strict rk hw] at hval
        exact Except.noConfusion hval
    | error e =>
        rw [validate_walk_error schema obj strict rk hw] at hval
        cases hc : isFieldValidationError e with
        | true =>
            simp [hc] at hval
            subst hval
            exact _objectFieldChecker_mismatch_path schema obj strict rk hnc k t v hw
        | false =>
            simp [hc] at hval
            have hu := _objectFieldChecker_error_unwrapped schema obj strict rk hnc e hw
            rw [hval] at hu
            exact absurd hu (by simp [validationWrapFree])
  · simp [Validator.validate, _objectFieldChecker, _objectFieldLoop, _checkEntry.eq_def,
      _fieldChecker, _checkArrayElems, _isString, _isNumber, _isBool, getField,
      setFieldIfPresent, replaceFirst, jsTypeof, jsObjectKeys, qualifyKey, canonicalIndex,
      parseDigits, digitVal, field, objectField, customField, arrayField,
      JsValue.isUndefined, isFieldValidationError, Bind.bind, Except.bind, Pure.pure,
      Except.pure, List.find?, List.filter, List.contains, FieldSpec.type, FieldSpec.schema]
    all_goals rfl
  · simp [Validator.validate, _objectFieldChecker, _objectFieldLoop, _checkEntry.eq_def,
      _fieldChecker, _checkArrayElems, _isString, _isNumber, _isBool, getField,
      setFieldIfPresent, replaceFirst, jsTypeof, jsObjectKeys, qualifyKey, canonicalIndex,
      parseDigits, digitVal, field, objectField, customField, arrayField,
      JsValue.isUndefined, isFieldValidationError, Bind.bind, Except.bind, Pure.pure,
      Except.pure, List.find?, List.filter, List.contains, FieldSpec.type, FieldSpec.schema]
    all_goals rfl

/-- C4 witness: the general path-composition fact applied to the
concrete nested `age` failure — the reported key `"request.body.u.age"`
lies on a composed path starting at the schema field `u`. -/
theorem c4_mismatch_path_composition_witness :
    noCustomSchema [("u", objectField [("age", field .Number false)] false)] = true
    ∧ ∃ n idx segs,
        n ∈ (List.map Prod.fst [("u", objectField [("age", field .Number false)] false)])
        ∧ "request.body.u.age" = pathKey (some "request.body") (n, idx) segs := by
  have hnc : noCustomSchema [("u", objectField [("age", field .Number false)] false)]
      = true := by
    simp [noCustomSchema, FieldSpec.noCustom.eq_def, noCustomO, noCustomE, field,
      objectField]
  exact ⟨hnc,
    c4_mismatch_path_composition.1
      [("u", objectField [("age", field .Number false)] false)]
      (.obj [("u", .obj [("age", .str "bad")])]) false (some "request.body")
      "request.body.u.age" .Number (.str "bad") hnc
      c4_mismatch_path_composition.2.1⟩

/-- C2 counterexample: an Array value supplied for an ObjectField is
not rejected with a type-mismatch at that field's key: since
`typeof [] = "object"`, the engine recurses into the nested schema,
and with an all-optional nested schema validation even succeeds. -/
theorem c2_array_for_object_field_not_rejected :
    Validator.validate [("b", objectField [("c", field .Number true)] false)]
      (.obj [("b", .arr [])]) ⟨false, none⟩ = .ok (.obj [("b", .arr [])]) := by
  simp [Validator.validate, _objectFieldChecker, _objectFieldLoop, _checkEntry.eq_def,
    _fieldChecker, _checkArrayElems, _isString, _isNumber, _isBool, getField,
    setFieldIfPresent, replaceFirst, jsTypeof, jsObjectKeys, qualifyKey, canonicalIndex,
    parseDigits, digitVal, field, objectField, customField, arrayField,
    JsValue.isUndefined, isFieldValidationError, Bind.bind, Except.bind, Pure.pure,
    Except.pure, List.find?, List.filter, List.contains]
  all_goals rfl

/-- C2 (amended): an ObjectField rejects with a type-mismatch at the
qualified key exactly the values whose `typeof` is not `"object"`
(primitives and `undefined`); any value of `typeof` `"object"` —
including Arrays and `null` — is recursed into via
`_objectFieldChecker` with the current qualified key as nested root
key. -/
theorem c2_object_field_typeof_dispatch :
    ∀ (nested : Schema) (n : String) (v : JsValue) (strict : Bool),
      (jsTypeof v ≠ "object" →
        Validator.validate [(n, objectField nested false)] (.obj [(n, v)])
          ⟨strict, none⟩ =
          .error (.validation (.fieldTypeMismatch n .Object v)))
      ∧ (jsTypeof v = "object" → ∀ key,
          _fieldChecker v key .Object strict (some nested) =
            _objectFieldChecker nested v strict (some key)) := by
  intro nested n v strict
  constructor
  · intro hno
    have hgf : getField (.obj [(n, v)]) n = v := getField_obj_cons_self n v []
    have hfc : _fieldChecker v n .Object strict (some nested) =
        .error (.fieldTypeMismatch n .Object v) := by
      simp only [_fieldChecker, hno, if_false]
    have hentry : _checkEntry strict none n (objectField nested false)
        (.obj [(n, v)]) = .error (.fieldTypeMismatch n .Object v) := by
      simp [objectField, _checkEntry.eq_def, hgf, qualifyKey, hfc,
        Bind.bind, Except.bind]
    have hwalk : _objectFieldChecker [(n, objectField nested false)]
        (.obj [(n, v)]) strict none = .error (.fieldTypeMismatch n .Object v) := by
      cases strict with
      | false =>
          rw [_objectFieldChecker_nonstrict]
          exact _objectFieldLoop_cons_error hentry
      | true =>
          have hkeys : jsObjectKeys (.obj [(n, v)]) = .ok [n] := rfl
          have hfil : List.filter
              (fun k => !((List.map Prod.fst [(n, objectField nested false)]).contains k))
              [n] = [] := by simp
          simp only [_objectFieldChecker, hkeys, if_true]
          rw [hfil]
          exact _objectFieldLoop_cons_error hentry
    have hval := validate_walk_error _ _ strict none hwalk
    simpa [isFieldValidationError] using hval
  · intro ho key
    simp only [_fieldChecker, ho, if_true]

/-- C2 witness: both parts of the amended dispatch fact at concrete
inputs (a number is rejected; an empty array is recursed into). -/
theorem c2_object_field_typeof_dispatch_witness :
    Validator.validate [("b", objectField [("c", field .Number false)] false)]
      (.obj [("b", .num 5)]) ⟨false, none⟩ =
      .error (.validation (.fieldTypeMismatch "b" .Object (.num 5)))
    ∧ _fieldChecker (.arr []) "b" .Object false (some [("c", field .Number false)]) =
        _objectFieldChecker [("c", field .Number false)] (.arr []) false (some "b") :=
  ⟨(c2_object_field_typeof_dispatch [("c", field .Number false)] "b" (.num 5) false).1
      (by simp [jsTypeof]),
   (c2_object_field_typeof_dispatch [("c", field .Number false)] "b" (.arr []) false).2
      (by simp [jsTypeof]) "b"⟩

/-- C3: a classified data-validation error produced anywhere in the
recursive walk reaches the caller wrapped in exactly one Validation
wrapper with the classified error as inner cause, while a non-classified
error propagates unwrapped — for every schema, input, options and error,
hence at every nesting depth. -/
theorem c3_error_propagation_policy :
    ∀ (schema : Schema) (obj : JsValue) (options : ValidateOptions) (e : JsError),
      _objectFieldChecker schema obj options.strict options.rootKey = .error e →
      (isFieldValidationError e = true →
        Validator.validate schema obj options = .error (.validation e))
      ∧ (isFieldValidationError e = false →
        Validator.validate schema obj options = .error e) := by
  intro schema obj options e h
  constructor <;> intro hc <;> simp [Validator.validate, h, hc]

/-- C3 witness: a type-mismatch raised at depth two (`u.age`) reaches
the caller wrapped exactly once. -/
theorem c3_error_propagation_policy_witness :
    Validator.validate [("u", objectField [("age", field .Number false)] false)]
      (.obj [("u", .obj [("age", .str "bad")])]) ⟨false, none⟩ =
      .error (.validation (.fieldTypeMismatch "u.age" .Number (.str "bad"))) :=
  (c3_error_propagation_policy
      [("u", objectField [("age", field .Number false)] false)]
      (.obj [("u", .obj [("age", .str "bad")])]) ⟨false, none⟩
      (.fieldTypeMismatch "u.age" .Number (.str "bad"))
      (by simp [_objectFieldChecker, _objectFieldLoop, _checkEntry.eq_def,
        _fieldChecker, _isString, _isNumber, _isBool, getField, setFieldIfPresent,
        replaceFirst, jsTypeof, jsObjectKeys, qualifyKey, canonicalIndex,
        parseDigits, digitVal, field, objectField, JsValue.isUndefined,
        Bind.bind, Except.bind, Pure.pure, Except.pure, List.find?])).1 rfl

/-- C5: the strict unexpected-key check runs before any field is
checked at an object level and reports the first offending key in the
input's own enumeration order, regardless of the fields' validity; and
an error in the head entry of the per-field walk preempts all later
entries (fail-fast, first field in schema declaration order wins). -/
theorem c5_strict_precedence_and_fail_fast :
    (∀ (schema : Schema) (obj : JsValue) (rk : Option String)
        (keys : List String) (u : String) (tail : List String),
      jsObjectKeys obj = .ok keys →
      keys.filter (fun k => !((schema.map Prod.fst).contains k)) = u :: tail →
      _objectFieldChecker schema obj true rk = .error (.unexpectedField u))
    ∧ (∀ (strict : Bool) (rk : Option String) (key : String) (fs : FieldSpec)
        (rest : List (String × FieldSpec)) (obj : JsValue) (e : JsError),
      _checkEntry strict rk key fs obj = .error e →
      _objectFieldLoop strict rk ((key, fs) :: rest) obj = .error e) := by
  constructor
  · intro schema obj rk keys u tail h1 h2
    exact _objectFieldChecker_strict_unexpected h1 h2
  · intro strict rk key fs rest obj e h
    exact _objectFieldLoop_cons_error h

/-- C5 witness: the unexpected key `"zz"` wins although field `"a"` is
also invalid; and with two invalid fields `(a, b)` the error names
`a`. -/
theorem c5_strict_precedence_and_fail_fast_witness :
    _objectFieldChecker [("a", field .String false)]
      (.obj [("a", .num 1), ("zz", .num 2)]) true none =
      .error (.unexpectedField "zz")
    ∧ _objectFieldLoop false none
        [("a", field .Number false), ("b", field .Number false)]
        (.obj [("a", .str "x"), ("b", .str "y")]) =
        .error (.fieldTypeMismatch "a" .Number (.str "x")) := by
  constructor
  · exact c5_strict_precedence_and_fail_fast.1 [("a", field .String false)]
      (.obj [("a", .num 1), ("zz", .num 2)]) none ["a", "zz"] "zz" [] rfl
      (by simp [field])
  · exact c5_strict_precedence_and_fail_fast.2 false none "a"
      (field .Number false) [("b", field .Number false)]
      (.obj [("a", .str "x"), ("b", .str "y")])
      (.fieldTypeMismatch "a" .Number (.str "x"))
      (by simp [_checkEntry.eq_def, _fieldChecker, _isNumber, getField,
        jsTypeof, qualifyKey, canonicalIndex, parseDigits, digitVal, field,
        JsValue.isUndefined, Bind.bind, Except.bind, Pure.pure, Except.pure,
        List.find?])

/-- C6: whenever validation succeeds, the returned value is the input
value itself — the in-place array normalization only ever writes back
values the element checkers returned unchanged, so the result is
deep-equal (structurally equal) to the input. -/
theorem c6_validate_roundtrip_identity :
    ∀ (schema : Schema) (obj : JsValue) (options : ValidateOptions) (v : JsValue),
      Validator.validate schema obj options = .ok v → v = obj := by
  intro schema obj options v h
  simp only [Validator.validate] at h
  cases hw : _objectFieldChecker schema obj options.strict options.rootKey with
  | ok w =>
      rw [hw] at h
      injection h with h
      rw [← h]
      exact _objectFieldChecker_ok_eq _ _ _ _ _ hw
  | error e =>
      rw [hw] at h
      cases hc : isFieldValidationError e <;> simp [hc] at h

/-- C6 witness: a successful strict validation with a rootKey returns
the input object unchanged. -/
theorem c6_validate_roundtrip_identity_witness :
    (JsValue.obj [("a", .str "x"), ("xs", .arr [.num 1])]) =
      .obj [("a", .str "x"), ("xs", .arr [.num 1])] :=
  c6_validate_roundtrip_identity
    [("a", field .String false), ("xs", arrayField (field .Number false) false)]
    (.obj [("a", .str "x"), ("xs", .arr [.num 1])]) ⟨true, some "k"⟩
    (.obj [("a", .str "x"), ("xs", .arr [.num 1])])
    (by simp [Validator.validate, _objectFieldChecker, _objectFieldLoop,
      _checkEntry.eq_def, _fieldChecker, _checkArrayElems, _isString, _isNumber,
      _isBool, getField, setFieldIfPresent, replaceFirst, jsTypeof, jsObjectKeys,
      qualifyKey, canonicalIndex, parseDigits, digitVal, field, arrayField,
      JsValue.isUndefined, isFieldValidationError, Bind.bind, Except.bind, Pure.pure,
      Except.pure, List.find?, List.filter, List.contains, FieldSpec.type,
      FieldSpec.schema])

/-- C8 counterexample: an error the resolver throws does not always
propagate unclassified — a resolver throwing one of the classified
field-validation errors is caught by the top-level handler and reaches
the caller wrapped in the Validation wrapper. -/
theorem c8_resolver_thrown_classified_error_wrapped :
    Validator.validate
      [("c0", customField (fun _ _ => .error (.fieldTypeMismatch "boom" .String (.num 0))) false)]
      (.obj [("c0", .num 7)]) ⟨false, none⟩ =
      .error (.validation (.fieldTypeMismatch "boom" .String (.num 0))) := by
  simp [Validator.validate, _objectFieldChecker, _objectFieldLoop, _checkEntry.eq_def,
    _fieldChecker, _checkArrayElems, _isString, _isNumber, _isBool, getField,
    setFieldIfPresent, replaceFirst, jsTypeof, jsObjectKeys, qualifyKey, canonicalIndex,
    parseDigits, digitVal, field, objectField, customField, arrayField,
    JsValue.isUndefined, isFieldValidationError, Bind.bind, Except.bind, Pure.pure,
    Except.pure, List.find?, List.filter, List.contains]
  all_goals rfl

/-- C8 (amended): a resolver returning a value not `===`-identical to
its input raises the unclassified resolver-contract programming error
(not wrapped); an error the resolver throws propagates unchanged when it
is not one of the classified field-validation errors, and is wrapped in
the Validation wrapper when it is. -/
theorem c8_resolver_contract :
    ∀ (r : Resolver) (n : String) (v : JsValue),
      (∀ w, r v n = .ok w → JsValue.beq w v = false →
        Validator.validate [(n, customField r false)] (.obj [(n, v)]) ⟨false, none⟩ =
          .error (.err ("Custom resolver for key " ++ n ++
            " did not return the origin value, which is not allowed")))
      ∧ (∀ e, r v n = .error e → isFieldValidationError e = false →
          Validator.validate [(n, customField r false)] (.obj [(n, v)]) ⟨false, none⟩ =
            .error e)
      ∧ (∀ e, r v n = .error e → isFieldValidationError e = true →
          Validator.validate [(n, customField r false)] (.obj [(n, v)]) ⟨false, none⟩ =
            .error (.validation e)) := by
  intro r n v
  have hgf : getField (.obj [(n, v)]) n = v := getField_obj_cons_self n v []
  refine ⟨?_, ?_, ?_⟩
  · intro w hr hbeq
    have hentry : _checkEntry false none n (customField r false) (.obj [(n, v)]) =
        .error (.err ("Custom resolver for key " ++ n ++
          " did not return the origin value, which is not allowed")) := by
      simp [customField, _checkEntry.eq_def, hgf, qualifyKey, hr, hbeq,
        JsValue.isUndefined, Bind.bind, Except.bind]
    have hwalk : _objectFieldChecker [(n, customField r false)] (.obj [(n, v)])
        false none = .error (.err ("Custom resolver for key " ++ n ++
          " did not return the origin value, which is not allowed")) := by
      rw [_objectFieldChecker_nonstrict]
      exact _objectFieldLoop_cons_error hentry
    have hval := validate_walk_error _ _ false none hwalk
    simpa [isFieldValidationError] using hval
  · intro e hr he
    have hentry : _checkEntry false none n (customField r false) (.obj [(n, v)]) =
        .error e := by
      simp [customField, _checkEntry.eq_def, hgf, qualifyKey, hr,
        JsValue.isUndefined, Bind.bind, Except.bind]
    have hwalk : _objectFieldChecker [(n, customField r false)] (.obj [(n, v)])
        false none = .error e := by
      rw [_objectFieldChecker_nonstrict]
      exact _objectFieldLoop_cons_error hentry
    have hval := validate_walk_error _ _ false none hwalk
    simpa [he] using hval
  · intro e hr he
    have hentry : _checkEntry false none n (customField r false) (.obj [(n, v)]) =
        .error e := by
      simp [customField, _checkEntry.eq_def, hgf, qualifyKey, hr,
        JsValue.isUndefined, Bind.bind, Except.bind]
    have hwalk : _objectFieldChecker [(n, customField r false)] (.obj [(n, v)])
        false none = .error e := by
      rw [_objectFieldChecker_nonstrict]
      exact _objectFieldLoop_cons_error hentry
    have hval := validate_walk_error _ _ false none hwalk
    simpa [he] using hval

/-- C8 witness: the three resolver outcomes at concrete inputs — a
transformed return value, a thrown plain error, and a thrown classified
error. -/
theorem c8_resolver_contract_witness :
    Validator.validate [("c", customField (fun _ _ => .ok (.num 99)) false)]
      (.obj [("c", .num 1)]) ⟨false, none⟩ =
      .error (.err "Custom resolver for key c did not return the origin value, which is not allowed")
    ∧ Validator.validate [("c", customField (fun _ _ => .error (.err "boom")) false)]
        (.obj [("c", .num 1)]) ⟨false, none⟩ = .error (.err "boom")
    ∧ Validator.validate
        [("c", customField (fun _ _ => .error (.fieldNonNullable "k")) false)]
        (.obj [("c", .num 1)]) ⟨false, none⟩ =
        .error (.validation (.fieldNonNullable "k")) := by
  refine ⟨?_, ?_, ?_⟩
  · exact (c8_resolver_contract (fun _ _ => .ok (.num 99)) "c" (.num 1)).1
      (.num 99) rfl (by simp [JsValue.beq.eq_def])
  · exact (c8_resolver_contract (fun _ _ => .error (.err "boom")) "c" (.num 1)).2.1
      (.err "boom") rfl rfl
  · exact (c8_resolver_contract (fun _ _ => .error (.fieldNonNullable "k")) "c"
      (.num 1)).2.2 (.fieldNonNullable "k") rfl rfl

/-- C9 counterexample: not every absent required field fails as a
type-mismatch — an absent required Custom field hands `undefined` to
its resolver, and with an identity resolver validation of `{}`
succeeds outright. -/
theorem c9_absent_required_custom_field_accepted :
    Validator.validate [("c", customField (fun w _ => .ok w) false)] (.obj [])
      ⟨false, none⟩ = .ok (.obj []) := by
  simp [Validator.validate, _objectFieldChecker, _objectFieldLoop, _checkEntry.eq_def,
    _fieldChecker, _checkArrayElems, _isString, _isNumber, _isBool, getField,
    setFieldIfPresent, replaceFirst, jsTypeof, jsObjectKeys, qualifyKey, canonicalIndex,
    parseDigits, digitVal, field, objectField, customField, arrayField,
    JsValue.isUndefined, JsValue.beq.eq_def, isFieldValidationError, Bind.bind,
    Except.bind, Pure.pure, Except.pure, List.find?, List.filter, List.contains]
  all_goals rfl

/-- C9 (amended to non-Custom kinds): a required field absent from the
input — after any prefix of optional fields that are also absent and
hence skipped — fails through the ordinary kind check with a wrapped
type-mismatch at its qualified key, carrying the declared kind and no
value (`undefined`), for every well-formed non-Custom kind (String,
Number, Bool, Object with a schema, Array with an element spec); and,
on custom-field-free schemas, no error the engine reports ever is (or
wraps) the reserved `FieldNonNullableError`. -/
theorem c9_required_absent_is_type_mismatch :
    (∀ (pre : List (String × FieldSpec)) (n : String) (fs : FieldSpec)
        (rest : Schema) (rk : Option String) (obj : JsValue),
      (∀ p ∈ pre, (p : String × FieldSpec).2.optional = true
        ∧ (getField obj p.1).isUndefined = true) →
      fs.optional = false →
      getField obj n = .undefined →
      (fs.type = .String ∨ fs.type = .Number ∨ fs.type = .Bool
        ∨ (fs.type = .Object ∧ fs.schema.isSome = true)
        ∨ (fs.type = .Array ∧ fs.elem.isSome = true)) →
      Validator.validate (pre ++ (n, fs) :: rest) obj ⟨false, rk⟩ =
        .error (.validation (.fieldTypeMismatch (qualifyKey rk n) fs.type .undefined)))
    ∧ (∀ (schema : Schema) (obj : JsValue) (options : ValidateOptions) (e : JsError),
      noCustomSchema schema = true →
      Validator.validate schema obj options = .error e →
      nonNullableFree e = true) := by
  constructor
  · intro pre n fs rest rk obj hall hopt hgfn htp
    have hentry : _checkEntry false rk n fs obj =
        .error (.fieldTypeMismatch (qualifyKey rk n) fs.type .undefined) := by
      cases fs with
      | mk o t s r el =>
          simp only [FieldSpec.optional] at hopt
          subst hopt
          simp only [FieldSpec.type, FieldSpec.schema, FieldSpec.elem] at htp ⊢
          rcases htp with rfl | rfl | rfl | ⟨rfl, hs⟩ | ⟨rfl, he⟩
          · simp [_checkEntry.eq_def, hgfn, qualifyKey, _fieldChecker,
              _isString, jsTypeof, JsValue.isUndefined, Bind.bind, Except.bind]
          · simp [_checkEntry.eq_def, hgfn, qualifyKey, _fieldChecker,
              _isNumber, jsTypeof, JsValue.isUndefined, Bind.bind, Except.bind]
          · simp [_checkEntry.eq_def, hgfn, qualifyKey, _fieldChecker,
              _isBool, jsTypeof, JsValue.isUndefined, Bind.bind, Except.bind]
          · cases s with
            | none => exact absurd hs (by simp)
            | some sch =>
                simp [_checkEntry.eq_def, hgfn, qualifyKey, _fieldChecker,
                  jsTypeof, JsValue.isUndefined, Bind.bind, Except.bind]
          · cases el with
            | none => exact absurd he (by simp)
            | some ef =>
                simp [_checkEntry.eq_def, hgfn, qualifyKey,
                  JsValue.isUndefined, Bind.bind, Except.bind]
    have hloop : ∀ (pre' : List (String × FieldSpec)),
        (∀ p ∈ pre', (p : String × FieldSpec).2.optional = true
          ∧ (getField obj p.1).isUndefined = true) →
        _objectFieldLoop false rk (pre' ++ (n, fs) :: rest) obj =
          .error (.fieldTypeMismatch (qualifyKey rk n) fs.type .undefined) := by
      intro pre'
      induction pre' with
      | nil =>
          intro _
          simpa using _objectFieldLoop_cons_error hentry
      | cons p ps ih =>
          intro hall'
          obtain ⟨k, pfs⟩ := p
          have hskip : _checkEntry false rk k pfs obj = .ok obj :=
            _checkEntry_skip (hall' (k, pfs) (by simp)).1 (hall' (k, pfs) (by simp)).2
          rw [List.cons_append, _objectFieldLoop_cons_ok hskip]
          exact ih (fun q hq => hall' q (by simp [hq]))
    have hwalk : _objectFieldChecker (pre ++ (n, fs) :: rest) obj false rk =
        .error (.fieldTypeMismatch (qualifyKey rk n) fs.type .undefined) := by
      rw [_objectFieldChecker_nonstrict]
      exact hloop pre hall
    have hval := validate_walk_error _ _ false rk hwalk
    simpa [isFieldValidationError] using hval
  · intro schema obj options e hnc h
    simp only [Validator.validate] at h
    cases hw : _objectFieldChecker schema obj options.strict options.rootKey with
    | ok w =>
        rw [hw] at h
        simp at h
    | error e0 =>
        rw [hw] at h
        have h0 := _objectFieldChecker_noCustom_nonNullableFree schema obj
          options.strict options.rootKey hnc e0 hw
        cases hc : isFieldValidationError e0 with
        | false =>
            simp [hc] at h
            rw [← h]
            exact h0
        | true =>
            simp [hc] at h
            rw [← h]
            simpa [nonNullableFree] using h0

/-- C9 witness: an absent required Object field, after a skipped absent
optional field and under a rootKey, reports a wrapped type-mismatch at
`"root.p"` with kind Object and no value; and a concrete failing run on
a custom-free schema carries no non-nullable error. -/
theorem c9_required_absent_is_type_mismatch_witness :
    Validator.validate
      [("e", field .String true), ("p", objectField [("q", field .Number false)] false)]
      (.obj [("x", .num 1)]) ⟨false, some "root"⟩ =
      .error (.validation (.fieldTypeMismatch "root.p" .Object .undefined))
    ∧ nonNullableFree (.validation (.fieldTypeMismatch "a" .String .undefined)) = true := by
  constructor
  · have h := c9_required_absent_is_type_mismatch.1
      [("e", field .String true)] "p" (objectField [("q", field .Number false)] false)
      [] (some "root") (.obj [("x", .num 1)])
      (by
        intro p hp
        simp only [List.mem_singleton] at hp
        subst hp
        exact ⟨rfl, rfl⟩)
      rfl rfl (Or.inr (Or.inr (Or.inr (Or.inl ⟨rfl, rfl⟩))))
    simpa [objectField, field, qualifyKey, FieldSpec.type] using h
  · exact c9_required_absent_is_type_mismatch.2 [("a", field .String false)]
      (.obj []) ⟨false, none⟩ (.validation (.fieldTypeMismatch "a" .String .undefined))
      (by simp [noCustomSchema, FieldSpec.noCustom.eq_def, noCustomO, noCustomE, field])
      (by simp [Validator.validate, _objectFieldChecker, _objectFieldLoop,
        _checkEntry.eq_def, _fieldChecker, _isString, getField, jsTypeof,
        qualifyKey, field, JsValue.isUndefined, isFieldValidationError,
        Bind.bind, Except.bind, Pure.pure, Except.pure, List.find?])

/-- C10 counterexample: with strict off, a null input does not always
yield a wrapped type-mismatch for the first required field — when that
field is a Custom field with an identity resolver, validation of null
succeeds outright. -/
theorem c10_custom_required_field_null_input_succeeds :
    Validator.validate [("c", customField (fun w _ => .ok w) false)] .null
      ⟨false, none⟩ = .ok .null := by
  simp [Validator.validate, _objectFieldChecker, _objectFieldLoop, _checkEntry.eq_def,
    _fieldChecker, _checkArrayElems, _isString, _isNumber, _isBool, getField,
    setFieldIfPresent, replaceFirst, jsTypeof, jsObjectKeys, qualifyKey, canonicalIndex,
    parseDigits, digitVal, field, objectField, customField, arrayField,
    JsValue.isUndefined, JsValue.beq.eq_def, isFieldValidationError, Bind.bind,
    Except.bind, Pure.pure, Except.pure, List.find?, List.filter, List.contains]
  all_goals rfl

/-- C10 (amended): with strict mode on, a null (or undefined) top-level
input makes `Object.keys` throw an unclassified TypeError that reaches
the caller unwrapped, for every schema; with strict mode off the walk
skips optional fields and the first required field — when its kind is
not Custom (and its spec is well-formed) — fails with a wrapped
type-mismatch at its qualified key against the absent value (a leading
required Custom field instead hands the absent value to its resolver
and may succeed). -/
theorem c10_null_input_dichotomy :
    (∀ (schema : Schema) (rk : Option String),
      Validator.validate schema .null ⟨true, rk⟩ =
        .error (.err "TypeError: Cannot convert undefined or null to object")
      ∧ Validator.validate schema .undefined ⟨true, rk⟩ =
        .error (.err "TypeError: Cannot convert undefined or null to object"))
    ∧ (∀ (pre : List (String × FieldSpec)) (n : String) (fs : FieldSpec)
        (rest : Schema) (rk : Option String),
      (∀ p ∈ pre, (p : String × FieldSpec).2.optional = true) →
      fs.optional = false →
      (fs.type = .String ∨ fs.type = .Number ∨ fs.type = .Bool
        ∨ (fs.type = .Object ∧ fs.schema.isSome = true)
        ∨ (fs.type = .Array ∧ fs.elem.isSome = true)) →
      Validator.validate (pre ++ (n, fs) :: rest) .null ⟨false, rk⟩ =
        .error (.validation (.fieldTypeMismatch (qualifyKey rk n) fs.type .undefined))) := by
  constructor
  · intro schema rk
    constructor
    · have hwalk : _objectFieldChecker schema .null true rk =
          .error (.err "TypeError: Cannot convert undefined or null to object") := by
        simp [_objectFieldChecker, jsObjectKeys]
      have hval := validate_walk_error _ _ true rk hwalk
      simpa [isFieldValidationError] using hval
    · have hwalk : _objectFieldChecker schema .undefined true rk =
          .error (.err "TypeError: Cannot convert undefined or null to object") := by
        simp [_objectFieldChecker, jsObjectKeys]
      have hval := validate_walk_error _ _ true rk hwalk
      simpa [isFieldValidationError] using hval
  · intro pre n fs rest rk hall hopt htp
    have hentry : _checkEntry false rk n fs .null =
        .error (.fieldTypeMismatch (qualifyKey rk n) fs.type .undefined) := by
      cases fs with
      | mk o t s r el =>
          simp only [FieldSpec.optional] at hopt
          subst hopt
          simp only [FieldSpec.type, FieldSpec.schema, FieldSpec.elem] at htp ⊢
          rcases htp with rfl | rfl | rfl | ⟨rfl, hs⟩ | ⟨rfl, he⟩
          · simp [_checkEntry.eq_def, getField_null, qualifyKey, _fieldChecker,
              _isString, jsTypeof, JsValue.isUndefined, Bind.bind, Except.bind]
          · simp [_checkEntry.eq_def, getField_null, qualifyKey, _fieldChecker,
              _isNumber, jsTypeof, JsValue.isUndefined, Bind.bind, Except.bind]
          · simp [_checkEntry.eq_def, getField_null, qualifyKey, _fieldChecker,
              _isBool, jsTypeof, JsValue.isUndefined, Bind.bind, Except.bind]
          · cases s with
            | none => exact absurd hs (by simp)
            | some sch =>
                simp [_checkEntry.eq_def, getField_null, qualifyKey, _fieldChecker,
                  jsTypeof, JsValue.isUndefined, Bind.bind, Except.bind]
          · cases el with
            | none => exact absurd he (by simp)
            | some ef =>
                simp [_checkEntry.eq_def, getField_null, qualifyKey,
                  JsValue.isUndefined, Bind.bind, Except.bind]
    have hloop : ∀ (pre' : List (String × FieldSpec)),
        (∀ p ∈ pre', (p : String × FieldSpec).2.optional = true) →
        _objectFieldLoop false rk (pre' ++ (n, fs) :: rest) .null =
          .error (.fieldTypeMismatch (qualifyKey rk n) fs.type .undefined) := by
      intro pre'
      induction pre' with
      | nil =>
          intro _
          simpa using _objectFieldLoop_cons_error hentry
      | cons p ps ih =>
          intro hall'
          obtain ⟨k, pfs⟩ := p
          have hskip : _checkEntry false rk k pfs .null = .ok .null :=
            _checkEntry_skip (hall' (k, pfs) (by simp)) rfl
          rw [List.cons_append, _objectFieldLoop_cons_ok hskip]
          exact ih (fun q hq => hall' q (by simp [hq]))
    have hwalk : _objectFieldChecker (pre ++ (n, fs) :: rest) .null false rk =
        .error (.fieldTypeMismatch (qualifyKey rk n) fs.type .undefined) := by
      rw [_objectFieldChecker_nonstrict]
      exact hloop pre hall
    have hval := validate_walk_error _ _ false rk hwalk
    simpa [isFieldValidationError] using hval

/-- C10 witness: the strict TypeError and the non-strict wrapped
type-mismatch (after a skipped optional field, with a rootKey) at
concrete inputs. -/
theorem c10_null_input_dichotomy_witness :
    Validator.validate [("a", field .String false)] .null ⟨true, some "R"⟩ =
      .error (.err "TypeError: Cannot convert undefined or null to object")
    ∧ Validator.validate [("p", field .String true), ("age", field .Number false)]
        .null ⟨false, some "root"⟩ =
        .error (.validation (.fieldTypeMismatch "root.age" .Number .undefined)) := by
  constructor
  · exact (c10_null_input_dichotomy.1 [("a", field .String false)] (some "R")).1
  · exact c10_null_input_dichotomy.2 [("p", field .String true)] "age"
      (field .Number false) [] (some "root")
      (by intro p hp; simp at hp; subst hp; rfl) rfl (Or.inr (Or.inl rfl))

end TsValidator
